import Mathlib

/-!
Shallow embedding of the lookup/caching/retry core of the company-info
service (`src/tools.py`) together with theorems checking the
natural-language specification against it.

The embedding models:
* Python string helpers (`strip`, `isdigit`, `zfill`, `lower`, substring
  membership) as executable functions on `List Char` / `String`;
* the identifier validator/normalizer (`validate_corp_code`,
  the inline strip/zfill normalization);
* the retrying HTTP client (`make_request_with_retry`) as a fuel
  recursion over an oracle assigning an outcome to each attempt index;
* the company search (`search_company`), the period-sensitive lookups
  (`get_financial_statement`, `get_executives`, `get_shareholders`),
  the overview lookup (`get_company_overview`) and the trend analysis
  (`analyze_financial_trend`) as explicit state-passing functions over
  a cache state `St`, an environment `Env` (resolved credential and
  current date) and oracles describing the upstream API's replies.

Every operation additionally returns the list of upstream calls it
issued, so cache behaviour ("no further upstream call") is observable.
-/

namespace CompanyInfo

/-! ## Python string primitives -/

/-- `str.strip()` on the character list: drop whitespace at both ends. -/
def pyStripL (l : List Char) : List Char :=
  ((l.dropWhile Char.isWhitespace).reverse.dropWhile Char.isWhitespace).reverse

/-- `str.strip()`. -/
def pyStrip (s : String) : String := String.mk (pyStripL s.toList)

/-- `str.isdigit()`: non-empty and all decimal digits. -/
def pyIsDigitL (l : List Char) : Bool := !l.isEmpty && l.all Char.isDigit

/-- `str.isdigit()`. -/
def pyIsDigit (s : String) : Bool := pyIsDigitL s.toList

/-- `str.zfill(w)` for sign-free strings: left-pad with `'0'` up to width `w`. -/
def zfillL (l : List Char) (w : Nat) : List Char :=
  if l.length < w then List.replicate (w - l.length) '0' ++ l else l

/-- `str.zfill(w)`. -/
def pyZfill (s : String) (w : Nat) : String := String.mk (zfillL s.toList w)

/-- `str.lower()` (ASCII). -/
def pyLower (s : String) : String := String.mk (s.toList.map Char.toLower)

/-- Whether `needle` is a leading segment of `hay`. -/
def leadMatch : List Char → List Char → Bool
  | [], _ => true
  | _ :: _, [] => false
  | a :: as, b :: bs => a == b && leadMatch as bs

/-- Python `needle in hay` on strings: substring occurrence. -/
def occursIn (needle hay : List Char) : Bool :=
  leadMatch needle hay ||
    match hay with
    | [] => false
    | _ :: t => occursIn needle t

/-- Python `bool(x)` for an optional string argument: present and non-empty. -/
def optTruthy : Option String → Bool
  | none => false
  | some s => !(s == "")

/-- Value of a digit character. -/
def digitVal (c : Char) : Nat := c.toNat - '0'.toNat

/-- Parse a decimal digit list, most significant first. -/
def natParse (l : List Char) : Nat := l.foldl (fun a c => a * 10 + digitVal c) 0

/-- Parse a decimal string (the use of Python `int` on validated input). -/
def strToNat (s : String) : Nat := natParse s.toList

/-! ### `toString : Nat → String` round-trips through `natParse`,
hence is injective; this is what makes the candidate years distinct. -/

theorem digitVal_digitChar (m : Nat) (h : m < 10) :
    digitVal (Nat.digitChar m) = m := by
  interval_cases m <;> rfl

theorem toDigitsCore_append (fuel : Nat) :
    ∀ (n : Nat) (ds : List Char),
      Nat.toDigitsCore 10 fuel n ds = Nat.toDigitsCore 10 fuel n [] ++ ds := by
  induction fuel with
  | zero => intro n ds; simp [Nat.toDigitsCore]
  | succ f ih =>
    intro n ds
    simp only [Nat.toDigitsCore]
    by_cases h : n / 10 = 0
    · simp [h]
    · simp only [h, if_false]
      rw [ih (n / 10) (Nat.digitChar (n % 10) :: ds),
          ih (n / 10) [Nat.digitChar (n % 10)]]
      simp

theorem natParse_toDigitsCore (fuel : Nat) :
    ∀ n : Nat, n < fuel → natParse (Nat.toDigitsCore 10 fuel n []) = n := by
  induction fuel with
  | zero => intro n h; omega
  | succ f ih =>
    intro n h
    simp only [Nat.toDigitsCore]
    by_cases h0 : n / 10 = 0
    · have hn : n < 10 := by omega
      simp [h0, natParse, digitVal_digitChar (n % 10) (Nat.mod_lt _ (by omega))]
      omega
    · simp only [h0, if_false]
      rw [toDigitsCore_append]
      have hdiv : n / 10 < f := by
        have h1 : n / 10 < n := Nat.div_lt_self (by omega) (by omega)
        omega
      have hrec := ih (n / 10) hdiv
      simp only [natParse] at hrec ⊢
      rw [List.foldl_append]
      simp [hrec, digitVal_digitChar (n % 10) (Nat.mod_lt _ (by omega))]
      omega

theorem strToNat_toString (n : Nat) : strToNat (toString n) = n := by
  show natParse (Nat.toDigits 10 n).asString.toList = n
  have : (Nat.toDigits 10 n).asString.toList = Nat.toDigits 10 n := rfl
  rw [this]
  exact natParse_toDigitsCore (n + 1) n (Nat.lt_succ_self n)

theorem toString_nat_injective : Function.Injective (fun n : Nat => toString n) := by
  intro a b h
  have := congrArg strToNat h
  rwa [strToNat_toString, strToNat_toString] at this

/-! ## Identifier and year validation (`validate_corp_code`,
`validate_bsns_year`, and the inline strip/zfill normalization). -/

/-- `validate_corp_code` from `tools.py`: `(is_valid, error_message)`. -/
def validate_corp_code (corp_code : String) : Bool × Option String :=
  if corp_code == "" then
    (false, some "corp_code가 비어있습니다.")
  else
    let c := pyStrip corp_code
    if !pyIsDigit c then
      (false, some ("corp_code는 숫자만 가능합니다. (입력값: " ++ c ++ ")"))
    else if c.toList.length > 8 then
      (false, some ("corp_code는 최대 8자리입니다. (입력값: " ++ c ++ ", 길이: "
        ++ toString c.toList.length ++ ")"))
    else
      (true, none)

/-- The inline normalization every operation applies:
`corp_code = str(corp_code).strip(); if corp_code.isdigit(): corp_code = corp_code.zfill(8)`. -/
def normalize_corp_code (c : String) : String :=
  let s := pyStrip c
  if pyIsDigit s then pyZfill s 8 else s

/-- `validate_bsns_year` from `tools.py` (the current year is an input). -/
def validate_bsns_year (current_year : Nat) (bsns_year : Option String) :
    Bool × Option String :=
  match bsns_year with
  | none => (true, none)
  | some s =>
    if s == "" then (true, none)
    else
      let b := pyStrip s
      if !pyIsDigit b then
        (false, some ("bsns_year는 숫자만 가능합니다. (입력값: " ++ b ++ ")"))
      else if !(b.toList.length == 4) then
        (false, some ("bsns_year는 YYYY 형식(4자리)이어야 합니다. (입력값: " ++ b ++ ")"))
      else
        let year := strToNat b
        if year < 2000 || year > current_year + 1 then
          (false, some ("bsns_year는 2000년부터 " ++ toString (current_year + 1)
            ++ "년 사이여야 합니다. (입력값: " ++ b ++ ")"))
        else (true, none)

/-! ## Retry-capable HTTP client (`make_request_with_retry`).

An attempt is described by an oracle `f : Nat → AttemptOutcome` giving, for
each attempt index, what `requests.get` + `raise_for_status` does there:
return a response, raise `Timeout`, raise `ConnectionError`, or raise any
other `RequestException` (e.g. `HTTPError` for a 4xx/5xx status).  The
embedding returns the client's outcome together with the list of sleep
durations performed between attempts. -/

inductive AttemptOutcome where
  | ok (resp : String)
  | timeout (e : String)
  | connErr (e : String)
  | reqErr (e : String)
deriving DecidableEq, Repr

inductive RetryOutcome where
  | returned (resp : String)
  | raisedTimeout (e : String)
  | raisedConn (e : String)
  | raisedOther (e : String)
  | raisedGeneric
deriving DecidableEq, Repr

/-- Transient (retryable) outcomes: timeout and connection-level errors. -/
def transient : AttemptOutcome → Bool
  | .timeout _ => true
  | .connErr _ => true
  | _ => false

/-- Re-raising the stored `last_exception` once all attempts are spent. -/
def raisedOf : AttemptOutcome → RetryOutcome
  | .timeout e => .raisedTimeout e
  | .connErr e => .raisedConn e
  | _ => .raisedGeneric

/-- The `for attempt in range(max_retries)` loop.  `remaining` counts the
attempts still allowed, `i` is the current attempt index, `last` is
`last_exception`, and `sleeps` accumulates the `time.sleep` durations
(`(attempt + 1) * 1`, performed only when `attempt < max_retries - 1`,
i.e. when `remaining > 0` after the current attempt). -/
def retryAux (f : Nat → AttemptOutcome) :
    Nat → Nat → Option AttemptOutcome → List Nat → RetryOutcome × List Nat
  | 0, _, last, sleeps =>
    (match last with
     | some (.timeout e) => .raisedTimeout e
     | some (.connErr e) => .raisedConn e
     | _ => .raisedGeneric, sleeps)
  | remaining + 1, i, _, sleeps =>
    match f i with
    | .ok r => (.returned r, sleeps)
    | .timeout e =>
      retryAux f remaining (i + 1) (some (.timeout e))
        (if remaining == 0 then sleeps else sleeps ++ [(i + 1) * 1])
    | .connErr e =>
      retryAux f remaining (i + 1) (some (.connErr e))
        (if remaining == 0 then sleeps else sleeps ++ [(i + 1) * 1])
    | .reqErr e => (.raisedOther e, sleeps)

/-- `make_request_with_retry(url, params, max_retries, timeout)`. -/
def make_request_with_retry (f : Nat → AttemptOutcome) (max_retries : Nat) :
    RetryOutcome × List Nat :=
  retryAux f max_retries 0 none []

theorem retryAux_ok (f : Nat → AttemptOutcome) :
    ∀ (j rem i : Nat) (r : String), j < rem →
      (∀ k, k < j → transient (f (i + k)) = true) → f (i + j) = .ok r →
      ∀ (last : Option AttemptOutcome) (sleeps : List Nat),
        retryAux f rem i last sleeps =
          (.returned r, sleeps ++ (List.range j).map (fun k => (i + k + 1) * 1)) := by
  intro j
  induction j with
  | zero =>
    intro rem i r hj _ hf last sleeps
    obtain ⟨rem', rfl⟩ : ∃ rem', rem = rem' + 1 := ⟨rem - 1, by omega⟩
    simp only [retryAux]
    rw [show i + 0 = i from rfl] at hf
    rw [hf]
    simp
  | succ j' ih =>
    intro rem i r hj hpre hf last sleeps
    obtain ⟨rem', rfl⟩ : ∃ rem', rem = rem' + 1 := ⟨rem - 1, by omega⟩
    have ht : transient (f i) = true := by
      have := hpre 0 (Nat.succ_pos j')
      rwa [Nat.add_zero] at this
    have hrem' : 0 < rem' := by omega
    have hpre' : ∀ k, k < j' → transient (f (i + 1 + k)) = true := by
      intro k hk
      have := hpre (k + 1) (by omega)
      rwa [show i + (k + 1) = i + 1 + k by omega] at this
    have hf' : f (i + 1 + j') = .ok r := by
      rwa [show i + 1 + j' = i + (j' + 1) by omega]
    have hrange : (List.range (j' + 1)).map (fun k => (i + k + 1) * 1) =
        (i + 1) * 1 :: (List.range j').map (fun k => (i + 1 + k + 1) * 1) := by
      rw [List.range_succ_eq_map, List.map_cons, List.map_map]
      congr 1
      apply List.map_congr_left
      intro a _
      simp only [Function.comp]
      omega
    cases hfi : f i with
    | ok r' => rw [hfi] at ht; simp [transient] at ht
    | reqErr e => rw [hfi] at ht; simp [transient] at ht
    | timeout e =>
      simp only [retryAux, hfi]
      rw [if_neg (by simpa using Nat.pos_iff_ne_zero.mp hrem'),
        ih rem' (i + 1) r (by omega) hpre' hf']
      rw [hrange]
      simp
    | connErr e =>
      simp only [retryAux, hfi]
      rw [if_neg (by simpa using Nat.pos_iff_ne_zero.mp hrem'),
        ih rem' (i + 1) r (by omega) hpre' hf']
      rw [hrange]
      simp

theorem retryAux_reqErr (f : Nat → AttemptOutcome) :
    ∀ (j rem i : Nat) (e : String), j < rem →
      (∀ k, k < j → transient (f (i + k)) = true) → f (i + j) = .reqErr e →
      ∀ (last : Option AttemptOutcome) (sleeps : List Nat),
        retryAux f rem i last sleeps =
          (.raisedOther e, sleeps ++ (List.range j).map (fun k => (i + k + 1) * 1)) := by
  intro j
  induction j with
  | zero =>
    intro rem i e hj _ hf last sleeps
    obtain ⟨rem', rfl⟩ : ∃ rem', rem = rem' + 1 := ⟨rem - 1, by omega⟩
    simp only [retryAux]
    rw [show i + 0 = i from rfl] at hf
    rw [hf]
    simp
  | succ j' ih =>
    intro rem i e hj hpre hf last sleeps
    obtain ⟨rem', rfl⟩ : ∃ rem', rem = rem' + 1 := ⟨rem - 1, by omega⟩
    have ht : transient (f i) = true := by
      have := hpre 0 (Nat.succ_pos j')
      rwa [Nat.add_zero] at this
    have hrem' : 0 < rem' := by omega
    have hpre' : ∀ k, k < j' → transient (f (i + 1 + k)) = true := by
      intro k hk
      have := hpre (k + 1) (by omega)
      rwa [show i + (k + 1) = i + 1 + k by omega] at this
    have hf' : f (i + 1 + j') = .reqErr e := by
      rwa [show i + 1 + j' = i + (j' + 1) by omega]
    have hrange : (List.range (j' + 1)).map (fun k => (i + k + 1) * 1) =
        (i + 1) * 1 :: (List.range j').map (fun k => (i + 1 + k + 1) * 1) := by
      rw [List.range_succ_eq_map, List.map_cons, List.map_map]
      congr 1
      apply List.map_congr_left
      intro a _
      simp only [Function.comp]
      omega
    cases hfi : f i with
    | ok r' => rw [hfi] at ht; simp [transient] at ht
    | reqErr e' => rw [hfi] at ht; simp [transient] at ht
    | timeout e' =>
      simp only [retryAux, hfi]
      rw [if_neg (by simpa using Nat.pos_iff_ne_zero.mp hrem'),
        ih rem' (i + 1) e (by omega) hpre' hf']
      rw [hrange]
      simp
    | connErr e' =>
      simp only [retryAux, hfi]
      rw [if_neg (by simpa using Nat.pos_iff_ne_zero.mp hrem'),
        ih rem' (i + 1) e (by omega) hpre' hf']
      rw [hrange]
      simp

theorem retryAux_exhaust (f : Nat → AttemptOutcome) :
    ∀ (rem i : Nat), 0 < rem →
      (∀ k, k < rem → transient (f (i + k)) = true) →
      ∀ (last : Option AttemptOutcome) (sleeps : List Nat),
        retryAux f rem i last sleeps =
          (raisedOf (f (i + rem - 1)),
            sleeps ++ (List.range (rem - 1)).map (fun k => (i + k + 1) * 1)) := by
  intro rem
  induction rem with
  | zero => intro i h; omega
  | succ rem' ih =>
    intro i _ hall last sleeps
    have ht : transient (f i) = true := by
      have := hall 0 (Nat.succ_pos rem')
      rwa [Nat.add_zero] at this
    rcases Nat.eq_zero_or_pos rem' with h0 | hpos
    · subst h0
      cases hfi : f i with
      | ok r => rw [hfi] at ht; simp [transient] at ht
      | reqErr e => rw [hfi] at ht; simp [transient] at ht
      | timeout e =>
        simp only [retryAux, hfi, if_pos rfl]
        simp [raisedOf, hfi]
      | connErr e =>
        simp only [retryAux, hfi, if_pos rfl]
        simp [raisedOf, hfi]
    · have hall' : ∀ k, k < rem' → transient (f (i + 1 + k)) = true := by
        intro k hk
        have := hall (k + 1) (by omega)
        rwa [show i + (k + 1) = i + 1 + k by omega] at this
      have hrange : (List.range (rem' + 1 - 1)).map (fun k => (i + k + 1) * 1) =
          (i + 1) * 1 :: (List.range (rem' - 1)).map (fun k => (i + 1 + k + 1) * 1) := by
        rw [show rem' + 1 - 1 = (rem' - 1) + 1 by omega,
          List.range_succ_eq_map, List.map_cons, List.map_map]
        congr 1
        apply List.map_congr_left
        intro a _
        simp only [Function.comp]
        omega
      have hlast : i + 1 + rem' - 1 = i + (rem' + 1) - 1 := by omega
      cases hfi : f i with
      | ok r => rw [hfi] at ht; simp [transient] at ht
      | reqErr e => rw [hfi] at ht; simp [transient] at ht
      | timeout e =>
        simp only [retryAux, hfi]
        rw [if_neg (by simpa using Nat.pos_iff_ne_zero.mp hpos),
          ih (i + 1) hpos hall', hlast, hrange]
        simp
      | connErr e =>
        simp only [retryAux, hfi]
        rw [if_neg (by simpa using Nat.pos_iff_ne_zero.mp hpos),
          ih (i + 1) hpos hall', hlast, hrange]
        simp

/-- C1: the retrying HTTP fetch retries an attempt only when it fails with a
timeout or a connection-level error, sleeping `(attempt index + 1) * 1` time
units between attempts; any other request exception is re-raised
immediately with no further attempt; and if all `max_retries` attempts fail
with transient errors, the last transient error is re-raised. -/
theorem retry_fetch_policy (f : Nat → AttemptOutcome) (n : Nat) :
    (∀ j r, j < n → (∀ k, k < j → transient (f k) = true) → f j = .ok r →
      make_request_with_retry f n =
        (.returned r, (List.range j).map (fun k => (k + 1) * 1)))
    ∧ (∀ j e, j < n → (∀ k, k < j → transient (f k) = true) → f j = .reqErr e →
      make_request_with_retry f n =
        (.raisedOther e, (List.range j).map (fun k => (k + 1) * 1)))
    ∧ (0 < n → (∀ k, k < n → transient (f k) = true) →
      make_request_with_retry f n =
        (raisedOf (f (n - 1)), (List.range (n - 1)).map (fun k => (k + 1) * 1))) := by
  refine ⟨?_, ?_, ?_⟩
  · intro j r hj hpre hf
    have := retryAux_ok f j n 0 r hj (by simpa using hpre) (by simpa using hf) none []
    simpa [make_request_with_retry] using this
  · intro j e hj hpre hf
    have := retryAux_reqErr f j n 0 e hj (by simpa using hpre) (by simpa using hf) none []
    simpa [make_request_with_retry] using this
  · intro hn hall
    have := retryAux_exhaust f n 0 hn (by simpa using hall) none []
    simpa [make_request_with_retry] using this

/-- A concrete attempt oracle: timeout, connection reset, then success. -/
def attemptsW : Nat → AttemptOutcome
  | 0 => .timeout "t"
  | 1 => .connErr "c"
  | _ => .ok "resp"

/-- Witness for C1: three attempts — timeout, connection error, success —
return the response after sleeping 1 then 2 time units. -/
theorem retry_fetch_policy_witness :
    make_request_with_retry attemptsW 3 =
      (.returned "resp", (List.range 2).map (fun k => (k + 1) * 1)) :=
  (retry_fetch_policy attemptsW 3).1 2 "resp" (by omega)
    (by decide) (by rfl)

/-! ## Data model: registry entries, results, caches, upstream calls. -/

/-- One parsed entry of the downloaded `CORPCODE.xml` listing
(`findtext` defaults every missing tag to `""`). -/
structure Company where
  corp_code : String
  corp_name : String
  stock_code : String
  modify_date : String
deriving DecidableEq, Repr

/-- An upstream JSON object, modelled as an association list of string
fields (only string-valued fields are relevant to the embedded logic). -/
abbrev Row : Type := List (String × String)

/-- `d.get(k)` on a JSON object. -/
def rowFind (d : Row) (k : String) : Option String :=
  (List.find? (fun p => p.fst == k) d).map Prod.snd

/-- Result of `search_company`. -/
inductive SCResult where
  | ok (total : Nat) (companies : List Company)
  | error (msg : String)
deriving DecidableEq, Repr

/-- Result dict of a period-sensitive lookup; `field` is the name of the
key holding the data (`"financial_data"` / `"executives"` / `"shareholders"`). -/
inductive LookupResult where
  | ok (field corp_code bsns_year reprt_code : String) (data : List Row)
  | error (msg : String)
deriving DecidableEq, Repr

/-- Result dict of `get_company_overview`. -/
inductive OvResult where
  | ok (corp_code : String) (company_info : Row)
  | error (msg : String)
deriving DecidableEq, Repr

/-- Result dict of `analyze_financial_trend`. -/
inductive TrendResult where
  | ok (corp_code : String) (years_analyzed : Nat)
      (financial_trend : List (String × List Row)) (summary : String)
  | error (msg : String)
deriving DecidableEq, Repr

/-- Result dict of `get_public_disclosure`. -/
inductive DiscResult where
  | ok (corp_code : String) (total_count : Nat) (page_no page_count : Nat)
      (disclosures : List Row)
  | error (msg : String)
deriving DecidableEq, Repr

/-- Cache key of the period-sensitive lookups: `(corp_code, bsns_year, reprt_code)`. -/
abbrev FinKey : Type := String × String × String

/-- Cache key of `get_public_disclosure`:
`(corp_code, bgn_de, end_de, page_no, page_count)`. -/
abbrev DiscKey : Type := String × String × String × Nat × Nat

/-- Keys of the shared `failure_cache`; the constructors model the string
prefixes `"failure:"`, `"failure:disclosure:"`, `"failure:executives:"`,
`"failure:shareholders:"`, `"failure:overview:"` used in the source. -/
inductive FailKey where
  | fin (corp_code bsns_year reprt_code : String)
  | disc (corp_code bgn_de end_de : String) (page_no page_count : Nat)
  | execs (corp_code bsns_year reprt_code : String)
  | shares (corp_code bsns_year reprt_code : String)
  | ovw (corp_code : String)
deriving DecidableEq, Repr

/-- An upstream HTTP request issued by an operation. -/
inductive UpCall where
  | corpCode
  | fin (corp_code bsns_year reprt_code : String)
  | disc (corp_code bgn_de end_de : String) (page_no page_count : Nat)
  | execs (corp_code bsns_year reprt_code : String)
  | shares (corp_code bsns_year reprt_code : String)
  | overview (corp_code : String)
deriving DecidableEq, Repr

/-- Association-list lookup, used for every cache (`key in cache` +
`cache[key]`). -/
def lookupA {κ α : Type} [BEq κ] (st : List (κ × α)) (k : κ) : Option α :=
  (List.find? (fun p => p.fst == k) st).map Prod.snd

/-- The module-level caches of `tools.py` (`failure_cache` stores the
message of the error dict it holds). -/
structure St where
  company_cache : List (String × SCResult)
  financial_cache : List (FinKey × LookupResult)
  disclosure_cache : List (DiscKey × DiscResult)
  executives_cache : List (FinKey × LookupResult)
  shareholders_cache : List (FinKey × LookupResult)
  overview_cache : List (String × OvResult)
  failure_cache : List (FailKey × String)
deriving Repr

/-- The empty initial cache state. -/
def St.empty : St := ⟨[], [], [], [], [], [], []⟩

/-- The execution environment: the resolved `DART_API_KEY` credential and
the current date (`datetime.now()`), which the source reads for period
defaulting and candidate years. -/
structure Env where
  api_key : String
  current_year : Nat
  current_month : Nat
deriving Repr

/-- What downloading and parsing the full registry dataset yields. -/
inductive Download where
  | entries (es : List Company)
  | noXml
  | parseFail (msg : String)
  | reqFail (msg : String)

/-- Reply of a period-sensitive JSON endpoint for one candidate year:
a parsed dict with `status` / `message` / `list`, a non-dict body, or a
`RequestException` escaping `make_request_with_retry`. -/
inductive ApiReply where
  | resp (status message : String) (lst : List Row)
  | notDict
  | reqFail (e : String)
deriving DecidableEq, Repr

/-- Reply of the overview endpoint `company.json`. -/
inductive OvReply where
  | resp (d : Row)
  | notDict
  | reqFail (e : String)

/-- Reply of the disclosure endpoint `list.json`: the parsed dict's string
fields, its `total_count` (`data.get("total_count", 0)`) and its `list`
(`data.get("list", [])`), or a non-dict body, or a `RequestException`
escaping `make_request_with_retry`. -/
inductive DiscReply where
  | resp (d : Row) (total_count : Nat) (lst : List Row)
  | notDict
  | reqFail (e : String)

/-! ## Company search (`search_company`). -/

/-- The retention test of `search_company`:
`if corp_name and company_name_lower in corp_name.lower()`. -/
def matchesQuery (query : String) (c : Company) : Bool :=
  !(c.corp_name == "") &&
    occursIn (pyLower query).toList (pyLower c.corp_name).toList

/-- `search_company(company_name)`: check `company_cache` (keyed by the raw
query text), then download the registry and retain matching entries.
Returns the result, the updated cache state, and the upstream calls made. -/
def search_company (env : Env) (dl : Download) (st : St) (company_name : String) :
    SCResult × St × List UpCall :=
  match lookupA st.company_cache company_name with
  | some r => (r, st, [])
  | none =>
    if env.api_key == "" then
      (.error "API 키가 설정되지 않았습니다. DART_API_KEY 환경 변수를 설정해주세요.", st, [])
    else
      match dl with
      | .reqFail m => (.error ("API 요청 실패: " ++ m), st, [.corpCode])
      | .parseFail m => (.error ("파일 파싱 오류: " ++ m), st, [.corpCode])
      | .noXml => (.error "ZIP 파일 내에 XML 파일을 찾을 수 없습니다.", st, [.corpCode])
      | .entries es =>
        let matching := es.filter (matchesQuery company_name)
        let result := SCResult.ok matching.length matching
        (result, { st with company_cache := (company_name, result) :: st.company_cache },
          [.corpCode])

/-! ## Disambiguation policies. -/

/-- `is_exact` in the selection loop of `get_financial_statement`:
`company.get("corp_name", "").strip() == company_name.strip()`. -/
def isExactCo (query : String) (c : Company) : Bool :=
  pyStrip c.corp_name == pyStrip query

/-- Whether an entry counts as listed in the selection loops:
`stock_code and stock_code != " "` after `strip()`. -/
def isListedCo (c : Company) : Bool :=
  let stock_code := pyStrip c.stock_code
  !(stock_code == "") && !(stock_code == " ")

/-- The scan of `get_financial_statement` over the matches, carrying
`listed_exact_match`, `exact_match`, `listed_first` (the first two are
overwritten on every hit, the last only set once). -/
def finSelectAux (query : String) :
    List Company → Option Company → Option Company → Option Company →
      Option Company × Option Company × Option Company
  | [], lex, ex, lf => (lex, ex, lf)
  | c :: rest, lex, ex, lf =>
    if isExactCo query c && isListedCo c then
      finSelectAux query rest (some c) ex lf
    else if isExactCo query c then
      finSelectAux query rest lex (some c) lf
    else if isListedCo c && lf.isNone then
      finSelectAux query rest lex ex (some c)
    else
      finSelectAux query rest lex ex lf

/-- `get_financial_statement`'s selection:
`listed_exact_match or exact_match or listed_first or companies[0]`. -/
def finSelect (query : String) (cs : List Company) : Option Company :=
  match cs with
  | [] => none
  | first :: _ =>
    match finSelectAux query cs none none none with
    | (some c, _, _) => some c
    | (none, some c, _) => some c
    | (none, none, some c) => some c
    | (none, none, none) => some first

/-- The selection used by `get_company_overview` / `get_executives` /
`get_shareholders`: first entry with a non-blank ticker, else the first
entry. -/
def listedFirstSelect (cs : List Company) : Option Company :=
  match List.find? isListedCo cs with
  | some c => some c
  | none => cs.head?

/-! ## The shared year-fallback loop of the period-sensitive lookups. -/

/-- Candidate years: the requested/defaulted year first, then the three
years preceding the *current* year, skipping the requested year
(`[bsns_year] + [str(current_year - i - 1) for i in range(3) if ... != bsns_year]`). -/
def years_to_try (bsns_year : String) (current_year : Nat) : List String :=
  bsns_year ::
    ((List.range 3).map (fun i => toString (current_year - i - 1))).filter
      (fun y => !(y == bsns_year))

/-- `last_error` message recorded for a candidate year whose reply is not
a success, exactly as formatted in the source. -/
def errMsgFor (year : String) (r : ApiReply) : String :=
  match r with
  | .reqFail e => "API 요청 실패: " ++ e ++ " (네트워크 오류로 인해 재시도했지만 실패했습니다.)"
  | .notDict => year ++ "년도: API 응답 형식이 올바르지 않습니다."
  | .resp s m _ =>
    if s == "000" then year ++ "년도: 응답은 성공했지만 데이터가 없습니다."
    else if s == "013" then year ++ "년도: 조회된 데이터가 없습니다."
    else year ++ "년도: " ++ m ++ " (status: " ++ s ++ ")"

/-- Whether a reply is a success for the loop: status `"000"` with a
non-empty result list. -/
def apiHit (r : ApiReply) : Bool :=
  match r with
  | .resp s _ lst => s == "000" && !lst.isEmpty
  | _ => false

/-- The `for year in years_to_try` loop shared (verbatim, up to the data
field name, log strings, call tag and caches touched) by
`get_financial_statement`, `get_executives` and `get_shareholders`.
Takes the success cache `sc` and the failure cache `fc`; returns the
result, both updated caches, and the calls issued.  On the first
candidate with status `"000"` and non-empty list it stores the result in
the success cache under the year actually used and stops; on exhaustion
it stores the error under `fkey` (the key built from the *requested*
year) in the failure cache. -/
def dartYearLoop (api : String → ApiReply) (mkCall : String → UpCall)
    (field corp_code reprt_code failLabel : String) (fkey : FailKey) :
    List String → Option String →
      List (FinKey × LookupResult) → List (FailKey × String) →
      LookupResult × List (FinKey × LookupResult) × List (FailKey × String) × List UpCall
  | [], lastError, sc, fc =>
    let msg := failLabel ++ lastError.getD "모든 연도에서 데이터를 찾을 수 없습니다."
    (.error msg, sc, (fkey, msg) :: fc, [])
  | year :: rest, _, sc, fc =>
    match api year with
    | .resp status message lst =>
      if status == "000" && !lst.isEmpty then
        let result := LookupResult.ok field corp_code year reprt_code lst
        (result, ((corp_code, year, reprt_code), result) :: sc, fc, [mkCall year])
      else
        let (res, sc', fc', calls) :=
          dartYearLoop api mkCall field corp_code reprt_code failLabel fkey rest
            (some (errMsgFor year (.resp status message lst))) sc fc
        (res, sc', fc', mkCall year :: calls)
    | .notDict =>
      let (res, sc', fc', calls) :=
        dartYearLoop api mkCall field corp_code reprt_code failLabel fkey rest
          (some (errMsgFor year .notDict)) sc fc
      (res, sc', fc', mkCall year :: calls)
    | .reqFail e =>
      let (res, sc', fc', calls) :=
        dartYearLoop api mkCall field corp_code reprt_code failLabel fkey rest
          (some (errMsgFor year (.reqFail e))) sc fc
      (res, sc', fc', mkCall year :: calls)

/-! ## Name-to-identifier resolution step shared by the lookups. -/

/-- The `if not corp_code and company_name:` prologue: resolve the name via
`search_company` and apply the operation's selection policy.  Returns
either an error message or the (possibly still absent) `corp_code`. -/
def resolve_corp (select : String → List Company → Option Company)
    (env : Env) (dl : Download) (st : St) (corp_code0 company_name0 : Option String) :
    Except String (Option String) × St × List UpCall :=
  if !optTruthy corp_code0 && optTruthy company_name0 then
    let name := company_name0.getD ""
    let (sr, st1, calls1) := search_company env dl st name
    match sr with
    | .error m => (.error ("기업 검색 실패: " ++ m), st1, calls1)
    | .ok _ companies =>
      if companies.isEmpty then
        (.error ("'" ++ name ++ "'에 해당하는 기업을 찾을 수 없습니다."), st1, calls1)
      else
        match select name companies with
        | some sel =>
          if sel.corp_code == "" then
            (.error ("'" ++ name ++ "'의 corp_code를 찾을 수 없습니다."), st1, calls1)
          else (.ok (some sel.corp_code), st1, calls1)
        | none => (.ok none, st1, calls1)
  else (.ok corp_code0, st, [])

/-! ## The lookup operations. -/

/-- `get_financial_statement(corp_code, company_name, bsns_year, reprt_code)`. -/
def get_financial_statement (env : Env) (dl : Download) (api : String → ApiReply)
    (corp_code0 company_name0 bsns_year0 : Option String) (reprt_code : String)
    (st : St) : LookupResult × St × List UpCall :=
  match resolve_corp finSelect env dl st corp_code0 company_name0 with
  | (.error m, st1, calls1) => (.error m, st1, calls1)
  | (.ok cc?, st1, calls1) =>
    if !optTruthy cc? then
      (.error "corp_code 또는 company_name 중 하나는 필수입니다.", st1, calls1)
    else
      let cc0 := cc?.getD ""
      match validate_corp_code cc0 with
      | (false, msg) =>
        (.error ("corp_code 검증 실패: " ++ msg.getD ""), st1, calls1)
      | (true, _) =>
        let cc := normalize_corp_code cc0
        if optTruthy bsns_year0 &&
            !(validate_bsns_year env.current_year bsns_year0).fst then
          (.error ("bsns_year 검증 실패: "
            ++ ((validate_bsns_year env.current_year bsns_year0).snd.getD "")),
            st1, calls1)
        else
          let by_ := if optTruthy bsns_year0 then bsns_year0.getD ""
                     else toString (env.current_year - 1)
          match lookupA st1.failure_cache (FailKey.fin cc by_ reprt_code) with
          | some m => (.error m, st1, calls1)
          | none =>
            match lookupA st1.financial_cache ((cc, by_, reprt_code) : FinKey) with
            | some r => (r, st1, calls1)
            | none =>
              if env.api_key == "" then
                (.error "API 키가 설정되지 않았습니다.", st1, calls1)
              else
                let (res, sc', fc', calls2) :=
                  dartYearLoop api (fun y => .fin cc y reprt_code) "financial_data"
                    cc reprt_code "재무제표 조회 실패: " (FailKey.fin cc by_ reprt_code)
                    (years_to_try by_ env.current_year) none
                    st1.financial_cache st1.failure_cache
                (res, { st1 with financial_cache := sc', failure_cache := fc' },
                  calls1 ++ calls2)

/-- `get_public_disclosure(corp_code, bgn_de, end_de, page_no, page_count)`.
The required identifier is validated and normalized; absent dates default
to today (`end_de`) and thirty days ago (`bgn_de`) — both supplied here as
the clock inputs `today` / `thirty_days_ago`; `dateOk` stands for
`datetime.strptime(_, "%Y%m%d")` succeeding (an external-library check);
`reply` is the upstream answer to the single `list.json` call. -/
def get_public_disclosure (env : Env) (dateOk : String → Bool) (reply : DiscReply)
    (corp_code0 : String) (bgn_de0 end_de0 : Option String)
    (page_no page_count : Nat) (today thirty_days_ago : String) (st : St) :
    DiscResult × St × List UpCall :=
  match validate_corp_code corp_code0 with
  | (false, msg) => (.error ("corp_code 검증 실패: " ++ msg.getD ""), st, [])
  | (true, _) =>
    let cc := normalize_corp_code corp_code0
    let end_de := if optTruthy end_de0 then end_de0.getD "" else today
    let bgn_de := if optTruthy bgn_de0 then bgn_de0.getD "" else thirty_days_ago
    if !(dateOk bgn_de && dateOk end_de) then
      (.error ("날짜 형식이 올바르지 않습니다. YYYYMMDD 형식이어야 합니다. (bgn_de: "
        ++ bgn_de ++ ", end_de: " ++ end_de ++ ")"), st, [])
    else
      match lookupA st.failure_cache
          (FailKey.disc cc bgn_de end_de page_no page_count) with
      | some m => (.error m, st, [])
      | none =>
        match lookupA st.disclosure_cache
            ((cc, bgn_de, end_de, page_no, page_count) : DiscKey) with
        | some r => (r, st, [])
        | none =>
          if env.api_key == "" then
            (.error "API 키가 설정되지 않았습니다.", st, [])
          else
            match reply with
            | .notDict =>
              let m := "API 응답 형식이 올바르지 않습니다."
              (.error m,
                { st with failure_cache :=
                  (FailKey.disc cc bgn_de end_de page_no page_count, m)
                    :: st.failure_cache },
                [.disc cc bgn_de end_de page_no page_count])
            | .reqFail e =>
              let m := "API 요청 실패: " ++ e
                ++ " (네트워크 오류로 인해 재시도했지만 실패했습니다.)"
              (.error m,
                { st with failure_cache :=
                  (FailKey.disc cc bgn_de end_de page_no page_count, m)
                    :: st.failure_cache },
                [.disc cc bgn_de end_de page_no page_count])
            | .resp d total lst =>
              if rowFind d "status" == some "000" then
                let r := DiscResult.ok cc total page_no page_count lst
                (r,
                  { st with disclosure_cache :=
                    ((cc, bgn_de, end_de, page_no, page_count), r)
                      :: st.disclosure_cache },
                  [.disc cc bgn_de end_de page_no page_count])
              else
                let m := "DART API 오류: " ++ ((rowFind d "message").getD "알 수 없는 오류")
                  ++ " (status: " ++ ((rowFind d "status").getD "unknown") ++ ")"
                (.error m,
                  { st with failure_cache :=
                    (FailKey.disc cc bgn_de end_de page_no page_count, m)
                      :: st.failure_cache },
                  [.disc cc bgn_de end_de page_no page_count])

/-- `get_executives(corp_code, company_name, bsns_year, reprt_code)`.
No `validate_corp_code` call and no `validate_bsns_year` call appear in
the source for this operation: the identifier is only stripped and
zero-padded.  The default year is the current year, or the previous one
before March. -/
def get_executives (env : Env) (dl : Download) (api : String → ApiReply)
    (corp_code0 company_name0 bsns_year0 : Option String) (reprt_code : String)
    (st : St) : LookupResult × St × List UpCall :=
  match resolve_corp (fun _ => listedFirstSelect) env dl st corp_code0 company_name0 with
  | (.error m, st1, calls1) => (.error m, st1, calls1)
  | (.ok cc?, st1, calls1) =>
    if !optTruthy cc? then
      (.error "corp_code 또는 company_name 중 하나는 필수입니다.", st1, calls1)
    else
      let cc := normalize_corp_code (cc?.getD "")
      let by_ := if optTruthy bsns_year0 then bsns_year0.getD ""
                 else if env.current_month < 3 then toString (env.current_year - 1)
                 else toString env.current_year
      match lookupA st1.failure_cache (FailKey.execs cc by_ reprt_code) with
      | some m => (.error m, st1, calls1)
      | none =>
        match lookupA st1.executives_cache ((cc, by_, reprt_code) : FinKey) with
        | some r => (r, st1, calls1)
        | none =>
          if env.api_key == "" then
            (.error "API 키가 설정되지 않았습니다.", st1, calls1)
          else
            let (res, sc', fc', calls2) :=
              dartYearLoop api (fun y => .execs cc y reprt_code) "executives"
                cc reprt_code "임원정보 조회 실패: " (FailKey.execs cc by_ reprt_code)
                (years_to_try by_ env.current_year) none
                st1.executives_cache st1.failure_cache
            (res, { st1 with executives_cache := sc', failure_cache := fc' },
              calls1 ++ calls2)

/-- `get_shareholders(corp_code, company_name, bsns_year, reprt_code)`.
Like `get_executives`: no identifier validation, default year is the
previous calendar year. -/
def get_shareholders (env : Env) (dl : Download) (api : String → ApiReply)
    (corp_code0 company_name0 bsns_year0 : Option String) (reprt_code : String)
    (st : St) : LookupResult × St × List UpCall :=
  match resolve_corp (fun _ => listedFirstSelect) env dl st corp_code0 company_name0 with
  | (.error m, st1, calls1) => (.error m, st1, calls1)
  | (.ok cc?, st1, calls1) =>
    if !optTruthy cc? then
      (.error "corp_code 또는 company_name 중 하나는 필수입니다.", st1, calls1)
    else
      let cc := normalize_corp_code (cc?.getD "")
      let by_ := if optTruthy bsns_year0 then bsns_year0.getD ""
                 else toString (env.current_year - 1)
      match lookupA st1.failure_cache (FailKey.shares cc by_ reprt_code) with
      | some m => (.error m, st1, calls1)
      | none =>
        match lookupA st1.shareholders_cache ((cc, by_, reprt_code) : FinKey) with
        | some r => (r, st1, calls1)
        | none =>
          if env.api_key == "" then
            (.error "API 키가 설정되지 않았습니다.", st1, calls1)
          else
            let (res, sc', fc', calls2) :=
              dartYearLoop api (fun y => .shares cc y reprt_code) "shareholders"
                cc reprt_code "지분보고서 조회 실패: " (FailKey.shares cc by_ reprt_code)
                (years_to_try by_ env.current_year) none
                st1.shareholders_cache st1.failure_cache
            (res, { st1 with shareholders_cache := sc', failure_cache := fc' },
              calls1 ++ calls2)

/-- `get_company_overview(corp_code, company_name)`: single upstream call,
status `"000"` maps to success, anything else to a cached failure. -/
def get_company_overview (env : Env) (dl : Download) (ovApi : String → OvReply)
    (corp_code0 company_name0 : Option String) (st : St) :
    OvResult × St × List UpCall :=
  match resolve_corp (fun _ => listedFirstSelect) env dl st corp_code0 company_name0 with
  | (.error m, st1, calls1) => (.error m, st1, calls1)
  | (.ok cc?, st1, calls1) =>
    if !optTruthy cc? then
      (.error "corp_code 또는 company_name 중 하나는 필수입니다.", st1, calls1)
    else
      match validate_corp_code (cc?.getD "") with
      | (false, msg) =>
        (.error ("corp_code 검증 실패: " ++ msg.getD ""), st1, calls1)
      | (true, _) =>
        let cc := normalize_corp_code (cc?.getD "")
        match lookupA st1.failure_cache (FailKey.ovw cc) with
        | some m => (.error m, st1, calls1)
        | none =>
          match lookupA st1.overview_cache cc with
          | some r => (r, st1, calls1)
          | none =>
            if env.api_key == "" then
              (.error "API 키가 설정되지 않았습니다.", st1, calls1)
            else
              match ovApi cc with
              | .reqFail e =>
                let m := "API 요청 실패: " ++ e
                  ++ " (네트워크 오류로 인해 재시도했지만 실패했습니다.)"
                (.error m,
                  { st1 with failure_cache := (FailKey.ovw cc, m) :: st1.failure_cache },
                  calls1 ++ [.overview cc])
              | .notDict =>
                let m := "API 응답 형식이 올바르지 않습니다."
                (.error m,
                  { st1 with failure_cache := (FailKey.ovw cc, m) :: st1.failure_cache },
                  calls1 ++ [.overview cc])
              | .resp d =>
                if rowFind d "status" == some "000" then
                  let r := OvResult.ok cc d
                  (r, { st1 with overview_cache := (cc, r) :: st1.overview_cache },
                    calls1 ++ [.overview cc])
                else
                  let m := "DART API 오류: " ++ ((rowFind d "message").getD "알 수 없는 오류")
                    ++ " (status: " ++ ((rowFind d "status").getD "unknown") ++ ")"
                  (.error m,
                    { st1 with failure_cache := (FailKey.ovw cc, m) :: st1.failure_cache },
                    calls1 ++ [.overview cc])

/-- `result.get("financial_data", [])` as read by `analyze_financial_trend`. -/
def finDataOf : LookupResult → List Row
  | .ok field _ _ _ data => if field == "financial_data" then data else []
  | .error _ => []

/-- The `for i in range(years)` collection loop of `analyze_financial_trend`:
`n` counts the remaining iterations, `i` is the loop index. -/
def trendLoop (env : Env) (dl : Download) (api : String → ApiReply)
    (corp_code : String) :
    Nat → Nat → St → List (String × List Row) × St × List UpCall
  | 0, _, st => ([], st, [])
  | n + 1, i, st =>
    let year := toString (env.current_year - i - 1)
    let (r, st1, c1) :=
      get_financial_statement env dl api (some corp_code) none (some year) "11011" st
    let (restL, st2, c2) := trendLoop env dl api corp_code n (i + 1) st1
    match r with
    | .error _ => (restL, st2, c1 ++ c2)
    | .ok f cc' y' rc' data => ((year, finDataOf (.ok f cc' y' rc' data)) :: restL, st2, c1 ++ c2)

/-- Summary string returned by `analyze_financial_trend`. -/
def trendSummary : String := "재무 추이 데이터가 수집되었습니다. AI가 추가 분석을 수행할 수 있습니다."

/-- `analyze_financial_trend(corp_code, years)`: collects the yearly
financial statements that return without error and reports their count.
No identifier validation of its own. -/
def analyze_financial_trend (env : Env) (dl : Download) (api : String → ApiReply)
    (corp_code : String) (years : Nat) (st : St) : TrendResult × St × List UpCall :=
  if env.api_key == "" then
    (.error "API 키가 설정되지 않았습니다.", st, [])
  else
    let (fd, st', calls) := trendLoop env dl api corp_code years 0 st
    (.ok corp_code fd.length fd trendSummary, st', calls)

/-! ## C5: identifier validation and normalization. -/

theorem pyStrip_toList (s : String) : (pyStrip s).toList = pyStripL s.toList := rfl

theorem mk_toList (l : List Char) : (String.mk l).toList = l := rfl

/-- C5: `validate_corp_code` succeeds exactly when the stripped input is
non-empty, all digits and at most 8 characters; on failure it returns a
descriptive reason; and for every valid 1–8 digit identifier the inline
normalization produces exactly the 8-character left-zero-padded form
(never truncating). -/
theorem validate_corp_code_eq (raw : String) :
    validate_corp_code raw =
      (if raw == "" then (false, some "corp_code가 비어있습니다.")
       else if !pyIsDigit (pyStrip raw) then
         (false, some ("corp_code는 숫자만 가능합니다. (입력값: " ++ pyStrip raw ++ ")"))
       else if (pyStrip raw).toList.length > 8 then
         (false, some ("corp_code는 최대 8자리입니다. (입력값: " ++ pyStrip raw ++ ", 길이: "
           ++ toString (pyStrip raw).toList.length ++ ")"))
       else (true, none)) := rfl

theorem pyIsDigitL_iff (l : List Char) :
    pyIsDigitL l = true ↔ (l ≠ [] ∧ l.all Char.isDigit = true) := by
  simp only [pyIsDigitL, Bool.and_eq_true, Bool.not_eq_true']
  constructor
  · rintro ⟨h1, h2⟩
    exact ⟨by simpa [List.isEmpty_iff] using h1, h2⟩
  · rintro ⟨h1, h2⟩
    exact ⟨by simpa [List.isEmpty_iff] using h1, h2⟩

theorem validate_fst_iff (raw : String) :
    (validate_corp_code raw).fst = true ↔
      (pyIsDigitL (pyStripL raw.toList) = true ∧ (pyStripL raw.toList).length ≤ 8) := by
  by_cases h1 : raw = ""
  · subst h1
    decide
  · have hb : (raw == "") = false := by simpa using h1
    rw [validate_corp_code_eq, hb]
    simp only [Bool.false_eq_true, if_false]
    cases h2 : pyIsDigit (pyStrip raw) with
    | false =>
      have h2' : pyIsDigitL (pyStripL raw.data) = false := h2
      simp [h2']
    | true =>
      have h2' : pyIsDigitL (pyStripL raw.data) = true := h2
      simp only [Bool.not_true, Bool.false_eq_true, if_false]
      have hlink : (pyStrip raw).toList.length = (pyStripL raw.data).length := rfl
      by_cases h3 : (pyStrip raw).toList.length > 8
      · rw [if_pos h3]
        simp [h2']
        omega
      · rw [if_neg h3]
        simp [h2']
        omega

theorem validate_snd_descriptive (raw : String) :
    (validate_corp_code raw).fst = false → ((validate_corp_code raw).snd).isSome = true := by
  intro hfail
  rw [validate_corp_code_eq] at hfail ⊢
  by_cases h1 : raw = ""
  · subst h1; rfl
  · have hb : (raw == "") = false := by simpa using h1
    rw [hb] at hfail ⊢
    simp only [Bool.false_eq_true, if_false] at hfail ⊢
    cases h2 : pyIsDigit (pyStrip raw) with
    | false => simp [h2]
    | true =>
      simp only [h2, Bool.not_true, Bool.false_eq_true, if_false] at hfail ⊢
      by_cases h3 : (pyStrip raw).toList.length > 8
      · rw [if_pos h3]
        rfl
      · rw [if_neg h3] at hfail
        exact absurd hfail (by simp)

theorem normalize_padded (raw : String)
    (hd : pyIsDigit (pyStrip raw) = true) (hlen : (pyStrip raw).toList.length ≤ 8) :
    normalize_corp_code raw =
      String.mk (List.replicate (8 - (pyStrip raw).toList.length) '0'
        ++ (pyStrip raw).toList)
    ∧ (normalize_corp_code raw).toList.length = 8 := by
  have hz : zfillL (pyStrip raw).toList 8 =
      List.replicate (8 - (pyStrip raw).toList.length) '0' ++ (pyStrip raw).toList := by
    rw [zfillL]
    by_cases hlt : (pyStrip raw).toList.length < 8
    · rw [if_pos hlt]
    · have h8 : (pyStrip raw).toList.length = 8 := by omega
      rw [if_neg hlt, h8]
      simp
  have hnorm : normalize_corp_code raw = pyZfill (pyStrip raw) 8 := by
    rw [normalize_corp_code]
    simp only [hd, if_pos]
  constructor
  · rw [hnorm, pyZfill, hz]
  · rw [hnorm, pyZfill, mk_toList, hz]
    simp only [List.length_append, List.length_replicate]
    omega

/-- C5: `validate_corp_code` succeeds exactly when the stripped input is
non-empty, all digits and at most 8 characters; on failure it returns a
descriptive reason; and for every valid 1–8 digit identifier the inline
normalization produces exactly the 8-character left-zero-padded form
(never truncating). -/
theorem corp_code_validation_spec (raw : String) :
    ((validate_corp_code raw).fst = true ↔
      (pyStripL raw.toList ≠ [] ∧ (pyStripL raw.toList).all Char.isDigit = true ∧
        (pyStripL raw.toList).length ≤ 8))
    ∧ ((validate_corp_code raw).fst = false → ((validate_corp_code raw).snd).isSome = true)
    ∧ (pyIsDigit (pyStrip raw) = true → (pyStrip raw).toList.length ≤ 8 →
        normalize_corp_code raw =
          String.mk (List.replicate (8 - (pyStrip raw).toList.length) '0'
            ++ (pyStrip raw).toList)
        ∧ (normalize_corp_code raw).toList.length = 8) := by
  refine ⟨?_, validate_snd_descriptive raw, normalize_padded raw⟩
  rw [validate_fst_iff raw]
  rw [pyIsDigitL_iff]
  tauto

/-- Witness for C5: `"126380"` validates and normalizes to the 8-character
zero-padded form. -/
theorem corp_code_validation_spec_witness :
    (validate_corp_code "126380").fst = true ∧
      normalize_corp_code "126380" =
        String.mk (List.replicate (8 - (pyStrip "126380").toList.length) '0'
          ++ (pyStrip "126380").toList) ∧
      (normalize_corp_code "126380").toList.length = 8 := by
  have h := corp_code_validation_spec "126380"
  refine ⟨h.1.mpr ⟨by decide, by decide, by decide⟩, ?_, ?_⟩
  · exact (h.2.2 (by decide) (by decide)).1
  · exact (h.2.2 (by decide) (by decide)).2

/-! ## C2: the period-fallback loop. -/

/-- Prefix one upstream call onto a loop outcome. -/
def withCall (c : UpCall)
    (r : LookupResult × List (FinKey × LookupResult) × List (FailKey × String) × List UpCall) :
    LookupResult × List (FinKey × LookupResult) × List (FailKey × String) × List UpCall :=
  (r.1, r.2.1, r.2.2.1, c :: r.2.2.2)

theorem dartYearLoop_miss_step (api : String → ApiReply) (mkCall : String → UpCall)
    (field cc rc fp : String) (fkey : FailKey) (year : String) (rest : List String)
    (le : Option String) (sc : List (FinKey × LookupResult)) (fc : List (FailKey × String))
    (hmiss : apiHit (api year) = false) :
    dartYearLoop api mkCall field cc rc fp fkey (year :: rest) le sc fc =
      withCall (mkCall year)
        (dartYearLoop api mkCall field cc rc fp fkey rest
          (some (errMsgFor year (api year))) sc fc) := by
  cases har : api year with
  | notDict => simp [dartYearLoop, har, withCall]
  | reqFail e => simp [dartYearLoop, har, withCall]
  | resp s m lst =>
    rw [har] at hmiss
    have hcond : (s == "000" && !lst.isEmpty) = false := by
      simpa [apiHit] using hmiss
    simp [dartYearLoop, har, hcond, withCall]

theorem dartYearLoop_hit (api : String → ApiReply) (mkCall : String → UpCall)
    (field cc rc fp : String) (fkey : FailKey) (year : String) (rest : List String)
    (le : Option String) (sc : List (FinKey × LookupResult)) (fc : List (FailKey × String))
    (s m : String) (lst : List Row)
    (har : api year = .resp s m lst) (hs : s = "000") (hne : lst ≠ []) :
    dartYearLoop api mkCall field cc rc fp fkey (year :: rest) le sc fc =
      (.ok field cc year rc lst,
        ((cc, year, rc), LookupResult.ok field cc year rc lst) :: sc, fc,
        [mkCall year]) := by
  subst hs
  have hcond : (("000" : String) == "000" && !lst.isEmpty) = true := by
    simp [List.isEmpty_iff, hne]
  simp only [dartYearLoop, har]
  rw [if_pos hcond]

theorem dartYearLoop_all_miss (api : String → ApiReply) (mkCall : String → UpCall)
    (field cc rc fp : String) (fkey : FailKey) :
    ∀ (ys : List String) (l : String), ys.getLast? = some l →
      (∀ y ∈ ys, apiHit (api y) = false) →
      ∀ (le : Option String) (sc : List (FinKey × LookupResult))
        (fc : List (FailKey × String)),
        dartYearLoop api mkCall field cc rc fp fkey ys le sc fc =
          (.error (fp ++ errMsgFor l (api l)), sc,
            (fkey, fp ++ errMsgFor l (api l)) :: fc, ys.map mkCall) := by
  intro ys
  induction ys with
  | nil => intro l hl; simp at hl
  | cons y rest ih =>
    intro l hl hall le sc fc
    have hmiss : apiHit (api y) = false := hall y (List.mem_cons_self y rest)
    rw [dartYearLoop_miss_step api mkCall field cc rc fp fkey y rest le sc fc hmiss]
    cases rest with
    | nil =>
      have hly : l = y := by
        simp [List.getLast?] at hl
        exact hl.symm
      subst hly
      simp [dartYearLoop, withCall]
    | cons r rs =>
      have hl' : (r :: rs).getLast? = some l := by
        rwa [List.getLast?_cons_cons] at hl
      have hall' : ∀ y' ∈ r :: rs, apiHit (api y') = false := by
        intro y' hy'
        exact hall y' (List.mem_cons_of_mem y hy')
      rw [ih l hl' hall' (some (errMsgFor y (api y))) sc fc]
      simp [withCall]

theorem dartYearLoop_first_hit (api : String → ApiReply) (mkCall : String → UpCall)
    (field cc rc fp : String) (fkey : FailKey) :
    ∀ (pre : List String) (yr : String) (rest : List String)
      (s m : String) (lst : List Row),
      (∀ p ∈ pre, apiHit (api p) = false) →
      api yr = .resp s m lst → s = "000" → lst ≠ [] →
      ∀ (le : Option String) (sc : List (FinKey × LookupResult))
        (fc : List (FailKey × String)),
        dartYearLoop api mkCall field cc rc fp fkey (pre ++ yr :: rest) le sc fc =
          (.ok field cc yr rc lst,
            ((cc, yr, rc), LookupResult.ok field cc yr rc lst) :: sc, fc,
            (pre ++ [yr]).map mkCall) := by
  intro pre
  induction pre with
  | nil =>
    intro yr rest s m lst _ har hs hne le sc fc
    simpa using dartYearLoop_hit api mkCall field cc rc fp fkey yr rest le sc fc s m lst har hs hne
  | cons p ps ih =>
    intro yr rest s m lst hpre har hs hne le sc fc
    have hmiss : apiHit (api p) = false := hpre p (List.mem_cons_self p ps)
    have hpre' : ∀ q ∈ ps, apiHit (api q) = false := fun q hq =>
      hpre q (List.mem_cons_of_mem p hq)
    rw [List.cons_append,
      dartYearLoop_miss_step api mkCall field cc rc fp fkey p (ps ++ yr :: rest) le sc fc hmiss,
      ih yr rest s m lst hpre' har hs hne (some (errMsgFor p (api p))) sc fc]
    simp [withCall]

theorem find?_split {α : Type} (p : α → Bool) :
    ∀ (l : List α) (x : α), List.find? p l = some x →
      ∃ pre rest, l = pre ++ x :: rest ∧ (∀ a ∈ pre, p a = false) ∧ p x = true := by
  intro l
  induction l with
  | nil => intro x hx; simp at hx
  | cons a as ih =>
    intro x hx
    cases hpa : p a with
    | true =>
      rw [List.find?_cons_of_pos _ hpa] at hx
      obtain rfl : a = x := by simpa using hx
      exact ⟨[], as, rfl, by simp, hpa⟩
    | false =>
      rw [List.find?_cons_of_neg _ (by simp [hpa])] at hx
      obtain ⟨pre, rest, rfl, hpre, hpx⟩ := ih x hx
      exact ⟨a :: pre, rest, rfl, by
        intro b hb
        rcases List.mem_cons.mp hb with rfl | hb
        · exact hpa
        · exact hpre b hb, hpx⟩

theorem years_to_try_head (y : String) (cy : Nat) :
    (years_to_try y cy).head? = some y := rfl

theorem years_to_try_length (y : String) (cy : Nat) :
    (years_to_try y cy).length ≤ 4 := by
  have h := List.length_filter_le (fun x => !(x == y))
    ((List.range 3).map (fun i => toString (cy - i - 1)))
  simp only [years_to_try, List.length_cons]
  simp at h
  omega

theorem years_to_try_nodup (y : String) (cy : Nat) (h3 : 3 ≤ cy) :
    (years_to_try y cy).Nodup := by
  rw [years_to_try, List.nodup_cons]
  constructor
  · intro hmem
    have := List.of_mem_filter hmem
    simp at this
  · apply List.Nodup.filter
    apply List.Nodup.map_on
    · intro a ha b hb hab
      have ha' : a < 3 := List.mem_range.mp ha
      have hb' : b < 3 := List.mem_range.mp hb
      have := toString_nat_injective hab
      omega
    · exact List.nodup_range 3

/-- C2: the period-sensitive fallback loop attempts at most four distinct
candidate years with the requested/defaulted year first; it succeeds
exactly on the first candidate whose reply has status `"000"` and a
non-empty list (soft misses, `"013"` and other error statuses all move on
to the next candidate); the requested year is never attempted twice; and
only after all candidates fail does it produce a Failure carrying the
last-seen error detail (which it also writes to the failure cache). -/
theorem period_fallback_spec (api : String → ApiReply) (mkCall : String → UpCall)
    (field cc rc fp : String) (fkey : FailKey) (y : String) (cy : Nat)
    (sc : List (FinKey × LookupResult)) (fc : List (FailKey × String))
    (h3 : 3 ≤ cy) :
    ((years_to_try y cy).head? = some y ∧ (years_to_try y cy).length ≤ 4 ∧
      (years_to_try y cy).Nodup)
    ∧ (∀ (pre : List String) (yr : String) (rest : List String) (s m : String)
        (lst : List Row),
        years_to_try y cy = pre ++ yr :: rest →
        (∀ p ∈ pre, apiHit (api p) = false) →
        api yr = .resp s m lst → s = "000" → lst ≠ [] →
        dartYearLoop api mkCall field cc rc fp fkey (years_to_try y cy) none sc fc =
          (.ok field cc yr rc lst,
            ((cc, yr, rc), LookupResult.ok field cc yr rc lst) :: sc, fc,
            (pre ++ [yr]).map mkCall))
    ∧ (∀ l : String, (years_to_try y cy).getLast? = some l →
        (∀ yr ∈ years_to_try y cy, apiHit (api yr) = false) →
        dartYearLoop api mkCall field cc rc fp fkey (years_to_try y cy) none sc fc =
          (.error (fp ++ errMsgFor l (api l)), sc,
            (fkey, fp ++ errMsgFor l (api l)) :: fc,
            (years_to_try y cy).map mkCall))
    ∧ ((∃ yr ∈ years_to_try y cy, apiHit (api yr) = true) ↔
        ∃ f' c' y' r' d',
          (dartYearLoop api mkCall field cc rc fp fkey (years_to_try y cy) none sc fc).1 =
            .ok f' c' y' r' d') := by
  refine ⟨⟨years_to_try_head y cy, years_to_try_length y cy, years_to_try_nodup y cy h3⟩,
    ?_, ?_, ?_⟩
  · intro pre yr rest s m lst hsplit hpre har hs hne
    rw [hsplit]
    exact dartYearLoop_first_hit api mkCall field cc rc fp fkey pre yr rest s m lst
      hpre har hs hne none sc fc
  · intro l hl hall
    exact dartYearLoop_all_miss api mkCall field cc rc fp fkey (years_to_try y cy) l hl
      hall none sc fc
  · constructor
    · rintro ⟨yr, hmem, hhit⟩
      have hfind : ∃ yr', List.find? (fun q => apiHit (api q)) (years_to_try y cy) = some yr' := by
        cases hf : List.find? (fun q => apiHit (api q)) (years_to_try y cy) with
        | some yr' => exact ⟨yr', rfl⟩
        | none =>
          exfalso
          have := List.find?_eq_none.mp hf yr hmem
          simp [hhit] at this
      obtain ⟨yr', hf⟩ := hfind
      obtain ⟨pre, rest, hsplit, hpre, hhit'⟩ :=
        find?_split (fun q => apiHit (api q)) (years_to_try y cy) yr' hf
      obtain ⟨s, m, lst, har, hs, hne⟩ : ∃ s m lst, api yr' = .resp s m lst ∧
          s = "000" ∧ lst ≠ [] := by
        cases har : api yr' with
        | notDict => rw [har] at hhit'; simp [apiHit] at hhit'
        | reqFail e => rw [har] at hhit'; simp [apiHit] at hhit'
        | resp s m lst =>
          rw [har] at hhit'
          simp only [apiHit, Bool.and_eq_true] at hhit'
          refine ⟨s, m, lst, rfl, by simpa using hhit'.1, ?_⟩
          have := hhit'.2
          simp [List.isEmpty_iff] at this
          exact this
      rw [hsplit, dartYearLoop_first_hit api mkCall field cc rc fp fkey pre yr' rest s m lst
        hpre har hs hne none sc fc]
      exact ⟨field, cc, yr', rc, lst, rfl⟩
    · rintro ⟨f', c', y', r', d', hok⟩
      by_contra hno
      push_neg at hno
      have hall : ∀ yr ∈ years_to_try y cy, apiHit (api yr) = false := by
        intro yr hmem
        cases h : apiHit (api yr)
        · rfl
        · exact absurd h (hno yr hmem)
      have hlast : ∃ l, (years_to_try y cy).getLast? = some l := by
        cases hg : (years_to_try y cy).getLast? with
        | some l => exact ⟨l, rfl⟩
        | none =>
          exfalso
          rw [List.getLast?_eq_none_iff] at hg
          exact absurd hg (by simp [years_to_try])
      obtain ⟨l, hl⟩ := hlast
      rw [dartYearLoop_all_miss api mkCall field cc rc fp fkey (years_to_try y cy) l hl
        hall none sc fc] at hok
      simp at hok

/-- A concrete year-indexed reply oracle for the C2 witness: 2023 is a soft
miss (status `"000"`, empty list), 2024 is a `"013"` no-data reply, and
2022 returns data. -/
def apiW : String → ApiReply := fun y =>
  if y == "2023" then .resp "000" "정상" []
  else if y == "2022" then .resp "000" "정상" [[("account_nm", "매출액")]]
  else .resp "013" "조회된 데이타가 없습니다." []

/-- Witness for C2 at `y = "2023"`, current year 2025: candidates are
`["2023", "2024", "2022"]` and the loop succeeds on `"2022"`. -/
theorem period_fallback_spec_witness :
    (years_to_try "2023" 2025).Nodup ∧
      dartYearLoop apiW (fun q => UpCall.fin "00126380" q "11011") "financial_data"
        "00126380" "11011" "재무제표 조회 실패: " (FailKey.fin "00126380" "2023" "11011")
        (years_to_try "2023" 2025) none [] [] =
        (.ok "financial_data" "00126380" "2022" "11011" [[("account_nm", "매출액")]],
          [(("00126380", "2022", "11011"),
            LookupResult.ok "financial_data" "00126380" "2022" "11011"
              [[("account_nm", "매출액")]])], [],
          [UpCall.fin "00126380" "2023" "11011", UpCall.fin "00126380" "2024" "11011",
            UpCall.fin "00126380" "2022" "11011"]) := by
  have h := period_fallback_spec apiW (fun q => UpCall.fin "00126380" q "11011")
    "financial_data" "00126380" "11011" "재무제표 조회 실패: "
    (FailKey.fin "00126380" "2023" "11011") "2023" 2025 [] [] (by omega)
  refine ⟨h.1.2.2, ?_⟩
  have hsplit : years_to_try "2023" 2025 = ["2023", "2024"] ++ "2022" :: [] := by rfl
  have := h.2.1 ["2023", "2024"] "2022" [] "000" "정상" [[("account_nm", "매출액")]]
    hsplit (by decide) (by rfl) rfl (by decide)
  rw [this]
  rfl

/-! ## C3: disambiguation policies. -/

theorem finSelectAux_fst_keep (q : String) :
    ∀ (cs : List Company) (ex lf : Option Company) (d : Company),
      ∃ c, (finSelectAux q cs (some d) ex lf).1 = some c := by
  intro cs
  induction cs with
  | nil => intro ex lf d; exact ⟨d, rfl⟩
  | cons c' rest ih =>
    intro ex lf d
    rw [finSelectAux]
    by_cases h1 : (isExactCo q c' && isListedCo c') = true
    · rw [if_pos h1]; exact ih ex lf c'
    · rw [if_neg h1]
      by_cases h2 : isExactCo q c' = true
      · rw [if_pos h2]; exact ih (some c') lf d
      · rw [if_neg h2]
        by_cases h3 : (isListedCo c' && lf.isNone) = true
        · rw [if_pos h3]; exact ih ex (some c') d
        · rw [if_neg h3]; exact ih ex lf d

theorem finSelectAux_fst_of_some (q : String) :
    ∀ (cs : List Company) (lex ex lf : Option Company) (c : Company),
      (finSelectAux q cs lex ex lf).1 = some c →
      (c ∈ cs ∧ isExactCo q c = true ∧ isListedCo c = true) ∨ lex = some c := by
  intro cs
  induction cs with
  | nil => intro lex ex lf c h; right; exact h
  | cons c' rest ih =>
    intro lex ex lf c h
    rw [finSelectAux] at h
    by_cases h1 : (isExactCo q c' && isListedCo c') = true
    · rw [if_pos h1] at h
      rcases ih (some c') ex lf c h with hc | hc
      · exact Or.inl ⟨List.mem_cons_of_mem c' hc.1, hc.2⟩
      · obtain rfl : c' = c := by simpa using hc
        simp only [Bool.and_eq_true] at h1
        exact Or.inl ⟨List.mem_cons_self c' rest, h1.1, h1.2⟩
    · rw [if_neg h1] at h
      by_cases h2 : isExactCo q c' = true
      · rw [if_pos h2] at h
        rcases ih lex (some c') lf c h with hc | hc
        · exact Or.inl ⟨List.mem_cons_of_mem c' hc.1, hc.2⟩
        · exact Or.inr hc
      · rw [if_neg h2] at h
        by_cases h3 : (isListedCo c' && lf.isNone) = true
        · rw [if_pos h3] at h
          rcases ih lex ex (some c') c h with hc | hc
          · exact Or.inl ⟨List.mem_cons_of_mem c' hc.1, hc.2⟩
          · exact Or.inr hc
        · rw [if_neg h3] at h
          rcases ih lex ex lf c h with hc | hc
          · exact Or.inl ⟨List.mem_cons_of_mem c' hc.1, hc.2⟩
          · exact Or.inr hc

theorem finSelectAux_fst_isSome (q : String) :
    ∀ (cs : List Company) (lex ex lf : Option Company),
      (∃ c ∈ cs, isExactCo q c = true ∧ isListedCo c = true) →
      ∃ c, (finSelectAux q cs lex ex lf).1 = some c := by
  intro cs
  induction cs with
  | nil => rintro lex ex lf ⟨c, hc, -⟩; simp at hc
  | cons c' rest ih =>
    rintro lex ex lf ⟨c, hc, hex, hli⟩
    rw [finSelectAux]
    rcases List.mem_cons.mp hc with rfl | hc
    · rw [if_pos (by simp [hex, hli])]
      exact finSelectAux_fst_keep q rest ex lf c
    · by_cases h1 : (isExactCo q c' && isListedCo c') = true
      · rw [if_pos h1]
        exact finSelectAux_fst_keep q rest ex lf c'
      · rw [if_neg h1]
        by_cases h2 : isExactCo q c' = true
        · rw [if_pos h2]; exact ih lex (some c') lf ⟨c, hc, hex, hli⟩
        · rw [if_neg h2]
          by_cases h3 : (isListedCo c' && lf.isNone) = true
          · rw [if_pos h3]; exact ih lex ex (some c') ⟨c, hc, hex, hli⟩
          · rw [if_neg h3]; exact ih lex ex lf ⟨c, hc, hex, hli⟩

theorem finSelectAux_snd_keep (q : String) :
    ∀ (cs : List Company) (lex lf : Option Company) (d : Company),
      ∃ c, (finSelectAux q cs lex (some d) lf).2.1 = some c := by
  intro cs
  induction cs with
  | nil => intro lex lf d; exact ⟨d, rfl⟩
  | cons c' rest ih =>
    intro lex lf d
    rw [finSelectAux]
    by_cases h1 : (isExactCo q c' && isListedCo c') = true
    · rw [if_pos h1]; exact ih (some c') lf d
    · rw [if_neg h1]
      by_cases h2 : isExactCo q c' = true
      · rw [if_pos h2]; exact ih lex lf c'
      · rw [if_neg h2]
        by_cases h3 : (isListedCo c' && lf.isNone) = true
        · rw [if_pos h3]; exact ih lex (some c') d
        · rw [if_neg h3]; exact ih lex lf d

theorem finSelectAux_snd_of_some (q : String) :
    ∀ (cs : List Company) (lex ex lf : Option Company) (c : Company),
      (finSelectAux q cs lex ex lf).2.1 = some c →
      (c ∈ cs ∧ isExactCo q c = true) ∨ ex = some c := by
  intro cs
  induction cs with
  | nil => intro lex ex lf c h; right; exact h
  | cons c' rest ih =>
    intro lex ex lf c h
    rw [finSelectAux] at h
    by_cases h1 : (isExactCo q c' && isListedCo c') = true
    · rw [if_pos h1] at h
      rcases ih (some c') ex lf c h with hc | hc
      · exact Or.inl ⟨List.mem_cons_of_mem c' hc.1, hc.2⟩
      · exact Or.inr hc
    · rw [if_neg h1] at h
      by_cases h2 : isExactCo q c' = true
      · rw [if_pos h2] at h
        rcases ih lex (some c') lf c h with hc | hc
        · exact Or.inl ⟨List.mem_cons_of_mem c' hc.1, hc.2⟩
        · obtain rfl : c' = c := by simpa using hc
          exact Or.inl ⟨List.mem_cons_self c' rest, h2⟩
      · rw [if_neg h2] at h
        by_cases h3 : (isListedCo c' && lf.isNone) = true
        · rw [if_pos h3] at h
          rcases ih lex ex (some c') c h with hc | hc
          · exact Or.inl ⟨List.mem_cons_of_mem c' hc.1, hc.2⟩
          · exact Or.inr hc
        · rw [if_neg h3] at h
          rcases ih lex ex lf c h with hc | hc
          · exact Or.inl ⟨List.mem_cons_of_mem c' hc.1, hc.2⟩
          · exact Or.inr hc

theorem finSelectAux_snd_isSome (q : String) :
    ∀ (cs : List Company) (lex ex lf : Option Company),
      (∃ c ∈ cs, isExactCo q c = true ∧ isListedCo c = false) →
      ∃ c, (finSelectAux q cs lex ex lf).2.1 = some c := by
  intro cs
  induction cs with
  | nil => rintro lex ex lf ⟨c, hc, -⟩; simp at hc
  | cons c' rest ih =>
    rintro lex ex lf ⟨c, hc, hex, hnl⟩
    rw [finSelectAux]
    rcases List.mem_cons.mp hc with rfl | hc
    · rw [if_neg (by simp [hnl]), if_pos hex]
      exact finSelectAux_snd_keep q rest lex lf c
    · by_cases h1 : (isExactCo q c' && isListedCo c') = true
      · rw [if_pos h1]; exact ih (some c') ex lf ⟨c, hc, hex, hnl⟩
      · rw [if_neg h1]
        by_cases h2 : isExactCo q c' = true
        · rw [if_pos h2]
          exact finSelectAux_snd_keep q rest lex lf c'
        · rw [if_neg h2]
          by_cases h3 : (isListedCo c' && lf.isNone) = true
          · rw [if_pos h3]; exact ih lex ex (some c') ⟨c, hc, hex, hnl⟩
          · rw [if_neg h3]; exact ih lex ex lf ⟨c, hc, hex, hnl⟩

theorem finSelectAux_no_exact (q : String) :
    ∀ (cs : List Company) (lf : Option Company),
      (∀ c ∈ cs, isExactCo q c = false) →
      finSelectAux q cs none none lf =
        (none, none,
          match lf with
          | some d => some d
          | none => List.find? isListedCo cs) := by
  intro cs
  induction cs with
  | nil => intro lf _; cases lf <;> rfl
  | cons c' rest ih =>
    intro lf hall
    have hex : isExactCo q c' = false := hall c' (List.mem_cons_self c' rest)
    have hall' : ∀ c ∈ rest, isExactCo q c = false := fun c hc =>
      hall c (List.mem_cons_of_mem c' hc)
    rw [finSelectAux, if_neg (by simp [hex]), if_neg (by simp [hex])]
    cases lf with
    | some d =>
      rw [if_neg (by simp)]
      exact ih (some d) hall'
    | none =>
      cases hli : isListedCo c' with
      | true =>
        rw [if_pos (by simp [hli])]
        rw [ih (some c') hall']
        rw [List.find?_cons_of_pos _ hli]
      | false =>
        rw [if_neg (by simp [hli])]
        rw [ih none hall']
        rw [List.find?_cons_of_neg _ (by simp [hli])]

theorem finSelectAux_fst_noLE (q : String) :
    ∀ (cs : List Company) (ex lf : Option Company),
      (∀ c ∈ cs, (isExactCo q c && isListedCo c) = false) →
      (finSelectAux q cs none ex lf).1 = none := by
  intro cs
  induction cs with
  | nil => intro ex lf _; rfl
  | cons c' rest ih =>
    intro ex lf hall
    have h1 : (isExactCo q c' && isListedCo c') = false :=
      hall c' (List.mem_cons_self c' rest)
    have hall' : ∀ c ∈ rest, (isExactCo q c && isListedCo c) = false := fun c hc =>
      hall c (List.mem_cons_of_mem c' hc)
    rw [finSelectAux, if_neg (by simp [h1])]
    by_cases h2 : isExactCo q c' = true
    · rw [if_pos h2]; exact ih (some c') lf hall'
    · rw [if_neg h2]
      by_cases h3 : (isListedCo c' && lf.isNone) = true
      · rw [if_pos h3]; exact ih ex (some c') hall'
      · rw [if_neg h3]; exact ih ex lf hall'

theorem finSelect_fst_arm (q : String) (first : Company) (rest : List Company)
    (c : Company)
    (h : (finSelectAux q (first :: rest) none none none).1 = some c) :
    finSelect q (first :: rest) = some c := by
  unfold finSelect
  rcases haux : finSelectAux q (first :: rest) none none none with ⟨o1, o2, o3⟩
  rw [haux] at h
  simp only at h
  subst h
  rfl

theorem finSelect_snd_arm (q : String) (first : Company) (rest : List Company)
    (c : Company)
    (h1 : (finSelectAux q (first :: rest) none none none).1 = none)
    (h2 : (finSelectAux q (first :: rest) none none none).2.1 = some c) :
    finSelect q (first :: rest) = some c := by
  unfold finSelect
  rcases haux : finSelectAux q (first :: rest) none none none with ⟨o1, o2, o3⟩
  rw [haux] at h1 h2
  simp only at h1 h2
  subst h1
  subst h2
  rfl

/-- Modelled from the spec (§4.4) for comparison — "prefer an entry whose
name exactly equals the query AND has a non-blank ticker; else prefer
exact name match; else prefer first entry with a non-blank ticker; else
take the first entry unconditionally." -/
def specDisambiguate (query : String) (cs : List Company) : Option Company :=
  match List.find? (fun c => (c.corp_name == query) && !(pyStrip c.stock_code == "")) cs with
  | some c => some c
  | none =>
    match List.find? (fun c => c.corp_name == query) cs with
    | some c => some c
    | none =>
      match List.find? (fun c => !(pyStrip c.stock_code == "")) cs with
      | some c => some c
      | none => cs.head?

/-- Match entries for the counterexample: a listed partial match first,
then a listed exact match. -/
def coXH : Company := ⟨"00000001", "X Holdings", "005930", "d1"⟩

def coX : Company := ⟨"00000002", "X", "123456", "d2"⟩

def envW : Env := ⟨"testkey123", 2025, 10⟩

def ovApiW : String → OvReply := fun _ => .resp [("status", "000"), ("message", "정상")]

/-- Counterexample to C3 as stated: `get_company_overview` does not apply
the four-tier disambiguation policy.  With matches `[X Holdings (listed),
X (listed, exact)]` for query `"X"`, the four-tier policy selects the
exact listed match `X` (`corp_code "00000002"`), but the overview lookup
issues its upstream call for `"00000001"` — the first listed entry. -/
theorem overview_disambiguation_counterexample :
    specDisambiguate "X" [coXH, coX] = some coX ∧
      isExactCo "X" coX = true ∧ isListedCo coX = true ∧
      coX.corp_code = "00000002" ∧
      (get_company_overview envW (.entries [coXH, coX]) ovApiW none (some "X")
          St.empty).2.2 =
        [UpCall.corpCode, UpCall.overview "00000001"] :=
  ⟨rfl, rfl, rfl, rfl, rfl⟩

/-- The spec's end-to-end scenario entries: an unlisted partial match and a
ticker-bearing exact match. -/
def coHold : Company := ⟨"00999999", "SampleCorp Holdings", "", "d3"⟩

def coSample : Company := ⟨"005930", "SampleCorp", "005930", "d4"⟩

def ovRowScn : Row := [("status", "000"), ("message", "정상"), ("corp_name", "SampleCorp")]

def ovApiScn : String → OvReply := fun _ => .resp ovRowScn

/-- C3 (amended): the four-tier policy (exact+listed, else exact, else
first listed, else first) is applied only by `get_financial_statement`;
`get_company_overview`, `get_executives` and `get_shareholders` select
the first entry with a non-blank ticker, else the first entry.  In the
spec's `getOverview` scenario — one ticker-bearing exact match and one
unlisted partial match — the ticker-bearing exact match is still
selected, with exactly one upstream overview call for the zero-padded
identifier. -/
theorem disambiguation_spec (q : String) (cs : List Company) :
    ((∃ c ∈ cs, isExactCo q c = true ∧ isListedCo c = true) →
      ∃ c, finSelect q cs = some c ∧ c ∈ cs ∧ isExactCo q c = true ∧ isListedCo c = true)
    ∧ ((∀ c ∈ cs, (isExactCo q c && isListedCo c) = false) →
      (∃ c ∈ cs, isExactCo q c = true) →
      ∃ c, finSelect q cs = some c ∧ c ∈ cs ∧ isExactCo q c = true)
    ∧ ((∀ c ∈ cs, isExactCo q c = false) → finSelect q cs = listedFirstSelect cs)
    ∧ (get_company_overview envW (.entries [coHold, coSample]) ovApiScn none
        (some "SampleCorp") St.empty =
        (OvResult.ok "00005930" ovRowScn,
          { St.empty with
            company_cache :=
              [("SampleCorp", SCResult.ok 2 [coHold, coSample])],
            overview_cache := [("00005930", OvResult.ok "00005930" ovRowScn)] },
          [UpCall.corpCode, UpCall.overview "00005930"])) := by
  refine ⟨?_, ?_, ?_, rfl⟩
  · rintro ⟨w, hw, hwex, hwli⟩
    cases cs with
    | nil => simp at hw
    | cons first rest =>
      obtain ⟨c, hc⟩ := finSelectAux_fst_isSome q (first :: rest) none none none
        ⟨w, hw, hwex, hwli⟩
      rcases finSelectAux_fst_of_some q (first :: rest) none none none c hc with
        ⟨hmem, hex, hli⟩ | habs
      · exact ⟨c, finSelect_fst_arm q first rest c hc, hmem, hex, hli⟩
      · simp at habs
  · rintro hnoLE ⟨w, hw, hwex⟩
    cases cs with
    | nil => simp at hw
    | cons first rest =>
      have hwnl : isListedCo w = false := by
        have := hnoLE w hw
        cases hli : isListedCo w
        · rfl
        · rw [hwex, hli] at this; simp at this
      obtain ⟨c, hc⟩ := finSelectAux_snd_isSome q (first :: rest) none none none
        ⟨w, hw, hwex, hwnl⟩
      have hfstnone : (finSelectAux q (first :: rest) none none none).1 = none :=
        finSelectAux_fst_noLE q (first :: rest) none none hnoLE
      rcases finSelectAux_snd_of_some q (first :: rest) none none none c hc with
        ⟨hmem, hex⟩ | habs
      · exact ⟨c, finSelect_snd_arm q first rest c hfstnone hc, hmem, hex⟩
      · simp at habs
  · intro hnoex
    cases cs with
    | nil => rfl
    | cons first rest =>
      rw [finSelect, finSelectAux_no_exact q (first :: rest) none hnoex]
      rw [listedFirstSelect]
      cases hf : List.find? isListedCo (first :: rest) with
      | some c => rfl
      | none => rfl

/-- Witness for C3 (amended): for query `"X"` over the counterexample
matches, `get_financial_statement`'s policy does pick the exact listed
entry. -/
theorem disambiguation_spec_witness :
    ∃ c, finSelect "X" [coXH, coX] = some c ∧ c ∈ [coXH, coX] ∧
      isExactCo "X" c = true ∧ isListedCo c = true :=
  (disambiguation_spec "X" [coXH, coX]).1
    ⟨coX, by decide, by decide, by decide⟩

/-! ## C4: which operations validate the identifier. -/

/-- An oracle whose every reply is the upstream `"013"` no-data status. -/
def apiF013 : String → ApiReply := fun _ => .resp "013" "조회된 데이터가 없습니다." []

/-- Counterexample to C4 as stated: `get_executives` performs no
identifier validation.  The 9-digit identifier `"123456789"` fails
`validate_corp_code`, yet `get_executives` issues upstream calls with it
(unpadded, unrejected) and returns a lookup failure — not a
validation-error result. -/
theorem executives_validation_counterexample :
    (validate_corp_code "123456789").fst = false ∧
      (get_executives envW (.entries []) apiF013 (some "123456789") none (some "2023")
          "11011" St.empty).2.2 =
        [UpCall.execs "123456789" "2023" "11011",
          UpCall.execs "123456789" "2024" "11011",
          UpCall.execs "123456789" "2022" "11011"] ∧
      (get_executives envW (.entries []) apiF013 (some "123456789") none (some "2023")
          "11011" St.empty).1 =
        .error "임원정보 조회 실패: 2022년도: 조회된 데이터가 없습니다." :=
  ⟨rfl, rfl, rfl⟩

theorem dartYearLoop_calls_ne_nil (api : String → ApiReply) (mkCall : String → UpCall)
    (field cc rc fp : String) (fkey : FailKey) (y0 : String) (rest : List String)
    (le : Option String) (sc : List (FinKey × LookupResult)) (fc : List (FailKey × String)) :
    (dartYearLoop api mkCall field cc rc fp fkey (y0 :: rest) le sc fc).2.2.2 ≠ [] := by
  cases har : api y0 with
  | notDict => simp [dartYearLoop, har]
  | reqFail e => simp [dartYearLoop, har]
  | resp s m lst =>
    by_cases hcond : (s == "000" && !lst.isEmpty) = true
    · simp [dartYearLoop, har, hcond]
    · rw [dartYearLoop_miss_step api mkCall field cc rc fp fkey y0 rest le sc fc
        (by simp [apiHit, har]; intro h; simpa [h] using hcond)]
      simp [withCall]

/-- C4 (amended): only `get_financial_statement` and `get_company_overview`
validate the identifier before use, rejecting invalid input with a
validation-error result and no upstream call; `get_executives` and
`get_shareholders` merely strip/zero-pad it and proceed to issue upstream
calls even for identifiers that fail validation. -/
theorem identifier_validation_spec (env : Env) (dl : Download) (api : String → ApiReply)
    (ovApi : String → OvReply) (cc : String) (bsns_year0 : Option String) (rc : String)
    (y : String) (st : St) :
    (cc ≠ "" → (validate_corp_code cc).fst = false →
      get_financial_statement env dl api (some cc) none bsns_year0 rc st =
        (.error ("corp_code 검증 실패: " ++ ((validate_corp_code cc).snd.getD "")), st, []))
    ∧ (cc ≠ "" → (validate_corp_code cc).fst = false →
      get_company_overview env dl ovApi (some cc) none st =
        (.error ("corp_code 검증 실패: " ++ ((validate_corp_code cc).snd.getD "")), st, []))
    ∧ (cc ≠ "" → y ≠ "" →
      lookupA st.failure_cache (FailKey.execs (normalize_corp_code cc) y rc) = none →
      lookupA st.executives_cache ((normalize_corp_code cc, y, rc) : FinKey) = none →
      env.api_key ≠ "" →
      (get_executives env dl api (some cc) none (some y) rc st).2.2 ≠ [])
    ∧ (cc ≠ "" → y ≠ "" →
      lookupA st.failure_cache (FailKey.shares (normalize_corp_code cc) y rc) = none →
      lookupA st.shareholders_cache ((normalize_corp_code cc, y, rc) : FinKey) = none →
      env.api_key ≠ "" →
      (get_shareholders env dl api (some cc) none (some y) rc st).2.2 ≠ []) := by
  have hres : ∀ select, resolve_corp select env dl st (some cc) none =
      (.ok (some cc), st, []) := by
    intro select
    rw [resolve_corp]
    simp [optTruthy]
  refine ⟨?_, ?_, ?_, ?_⟩
  · intro hcc hv
    have htr : optTruthy (some cc) = true := by simp [optTruthy, hcc]
    rw [get_financial_statement, hres]
    rcases hval : validate_corp_code cc with ⟨b, msg⟩
    rw [hval] at hv
    simp only at hv
    subst hv
    simp [htr, hval]
  · intro hcc hv
    have htr : optTruthy (some cc) = true := by simp [optTruthy, hcc]
    rw [get_company_overview, hres]
    rcases hval : validate_corp_code cc with ⟨b, msg⟩
    rw [hval] at hv
    simp only at hv
    subst hv
    simp [htr, hval]
  · intro hcc hy hfc hsc hkey
    have htr : optTruthy (some cc) = true := by simp [optTruthy, hcc]
    have htry : optTruthy (some y) = true := by simp [optTruthy, hy]
    rw [get_executives, hres]
    simp only [htr, Bool.not_true, Bool.false_eq_true, if_false, htry, if_pos,
      Option.getD_some]
    simp only [Option.getD_some, hfc, hsc]
    rw [if_neg (by simpa using hkey)]
    rw [years_to_try]
    exact dartYearLoop_calls_ne_nil api
      (fun q => UpCall.execs (normalize_corp_code cc) q rc) "executives"
      (normalize_corp_code cc) rc "임원정보 조회 실패: "
      (FailKey.execs (normalize_corp_code cc) y rc) y
      (((List.range 3).map (fun i => toString (env.current_year - i - 1))).filter
        (fun q => !(q == y))) none st.executives_cache st.failure_cache
  · intro hcc hy hfc hsc hkey
    have htr : optTruthy (some cc) = true := by simp [optTruthy, hcc]
    have htry : optTruthy (some y) = true := by simp [optTruthy, hy]
    rw [get_shareholders, hres]
    simp only [htr, Bool.not_true, Bool.false_eq_true, if_false, htry, if_pos,
      Option.getD_some]
    simp only [Option.getD_some, hfc, hsc]
    rw [if_neg (by simpa using hkey)]
    rw [years_to_try]
    exact dartYearLoop_calls_ne_nil api
      (fun q => UpCall.shares (normalize_corp_code cc) q rc) "shareholders"
      (normalize_corp_code cc) rc "지분보고서 조회 실패: "
      (FailKey.shares (normalize_corp_code cc) y rc) y
      (((List.range 3).map (fun i => toString (env.current_year - i - 1))).filter
        (fun q => !(q == y))) none st.shareholders_cache st.failure_cache

/-- Witness for C4 (amended): the non-numeric identifier `"abc"` is
rejected by `get_financial_statement` with no upstream call. -/
theorem identifier_validation_spec_witness :
    get_financial_statement envW (.entries []) apiF013 (some "abc") none none "11011"
        St.empty =
      (.error ("corp_code 검증 실패: " ++ ((validate_corp_code "abc").snd.getD "")),
        St.empty, []) :=
  (identifier_validation_spec envW (.entries []) apiF013 ovApiW "abc" none "11011"
    "2023" St.empty).1 (by decide) (by decide)

/-! ## C6: failure-cache behaviour. -/

/-- Counterexample to C6 as stated: `search_company` has no failure cache.
After a failed download the cache state is unchanged and an immediate
repeat call with the same query issues a fresh upstream call. -/
theorem search_failure_cache_counterexample :
    (search_company envW (.reqFail "boom") St.empty "삼성").1 =
        .error "API 요청 실패: boom" ∧
      (search_company envW (.reqFail "boom") St.empty "삼성").2.1 = St.empty ∧
      (search_company envW (.reqFail "boom") St.empty "삼성").2.2 = [UpCall.corpCode] ∧
      (search_company envW (.reqFail "boom")
          (search_company envW (.reqFail "boom") St.empty "삼성").2.1 "삼성").2.2 =
        [UpCall.corpCode] :=
  ⟨rfl, rfl, rfl, rfl⟩

/-- If the failure cache holds the fully-resolved key, the financial
lookup returns the cached failure with no upstream call — regardless of
what the success cache holds. -/
theorem fin_failure_hit (env : Env) (dl : Download) (api : String → ApiReply)
    (cc y rc m : String) (st : St)
    (hcc : cc ≠ "") (hv : (validate_corp_code cc).fst = true)
    (hy : y ≠ "") (hvy : (validate_bsns_year env.current_year (some y)).fst = true)
    (hfc : lookupA st.failure_cache (FailKey.fin (normalize_corp_code cc) y rc) = some m) :
    get_financial_statement env dl api (some cc) none (some y) rc st =
      (.error m, st, []) := by
  have hres : resolve_corp finSelect env dl st (some cc) none =
      (.ok (some cc), st, []) := by
    rw [resolve_corp]
    simp [optTruthy]
  have htr : optTruthy (some cc) = true := by simp [optTruthy, hcc]
  have htry : optTruthy (some y) = true := by simp [optTruthy, hy]
  rw [get_financial_statement, hres]
  rcases hval : validate_corp_code cc with ⟨b, msg⟩
  rw [hval] at hv
  simp only at hv
  subst hv
  simp only [htr, Bool.not_true, Bool.false_eq_true, if_false, Option.getD_some, hval,
    htry, hvy, Bool.true_and, Bool.and_false, eq_self_iff_true, if_true]
  simp [hfc]

/-- The financial lookup on the fully-uncached path: both caches miss, a
credential is present, and the operation runs the year-fallback loop. -/
theorem get_fin_uncached (env : Env) (dl : Download) (api : String → ApiReply)
    (cc y rc : String) (st : St)
    (hcc : cc ≠ "") (hv : (validate_corp_code cc).fst = true)
    (hy : y ≠ "") (hvy : (validate_bsns_year env.current_year (some y)).fst = true)
    (hfc : lookupA st.failure_cache (FailKey.fin (normalize_corp_code cc) y rc) = none)
    (hsc : lookupA st.financial_cache
      ((normalize_corp_code cc, y, rc) : FinKey) = none)
    (hkey : env.api_key ≠ "") :
    get_financial_statement env dl api (some cc) none (some y) rc st =
      ((dartYearLoop api (fun q => UpCall.fin (normalize_corp_code cc) q rc)
          "financial_data" (normalize_corp_code cc) rc "재무제표 조회 실패: "
          (FailKey.fin (normalize_corp_code cc) y rc)
          (years_to_try y env.current_year) none st.financial_cache st.failure_cache).1,
        { st with
          financial_cache :=
            (dartYearLoop api (fun q => UpCall.fin (normalize_corp_code cc) q rc)
              "financial_data" (normalize_corp_code cc) rc "재무제표 조회 실패: "
              (FailKey.fin (normalize_corp_code cc) y rc)
              (years_to_try y env.current_year) none st.financial_cache
              st.failure_cache).2.1,
          failure_cache :=
            (dartYearLoop api (fun q => UpCall.fin (normalize_corp_code cc) q rc)
              "financial_data" (normalize_corp_code cc) rc "재무제표 조회 실패: "
              (FailKey.fin (normalize_corp_code cc) y rc)
              (years_to_try y env.current_year) none st.financial_cache
              st.failure_cache).2.2.1 },
        (dartYearLoop api (fun q => UpCall.fin (normalize_corp_code cc) q rc)
          "financial_data" (normalize_corp_code cc) rc "재무제표 조회 실패: "
          (FailKey.fin (normalize_corp_code cc) y rc)
          (years_to_try y env.current_year) none st.financial_cache
          st.failure_cache).2.2.2) := by
  have hres : resolve_corp finSelect env dl st (some cc) none =
      (.ok (some cc), st, []) := by
    rw [resolve_corp]
    simp [optTruthy]
  have htr : optTruthy (some cc) = true := by simp [optTruthy, hcc]
  have htry : optTruthy (some y) = true := by simp [optTruthy, hy]
  rw [get_financial_statement, hres]
  rcases hval : validate_corp_code cc with ⟨b, msg⟩
  rw [hval] at hv
  simp only at hv
  subst hv
  simp only [htr, Bool.not_true, Bool.false_eq_true, if_false, Option.getD_some, hval,
    htry, hvy, Bool.true_and, Bool.and_false, eq_self_iff_true, if_true]
  simp only [hfc, hsc]
  rw [if_neg (by simpa using hkey)]
  simp

/-- The error message `get_company_overview` produces (and writes to the
failure cache) for a reply that is not a status-`"000"` dict; `none` for a
successful reply. -/
def ovFailMsg : OvReply → Option String
  | .notDict => some "API 응답 형식이 올바르지 않습니다."
  | .reqFail e =>
    some ("API 요청 실패: " ++ e ++ " (네트워크 오류로 인해 재시도했지만 실패했습니다.)")
  | .resp d =>
    if rowFind d "status" == some "000" then none
    else some ("DART API 오류: " ++ ((rowFind d "message").getD "알 수 없는 오류")
      ++ " (status: " ++ ((rowFind d "status").getD "unknown") ++ ")")

/-- The error message `get_public_disclosure` produces (and writes to the
failure cache) for a reply that is not a status-`"000"` dict. -/
def discFailMsg : DiscReply → Option String
  | .notDict => some "API 응답 형식이 올바르지 않습니다."
  | .reqFail e =>
    some ("API 요청 실패: " ++ e ++ " (네트워크 오류로 인해 재시도했지만 실패했습니다.)")
  | .resp d _ _ =>
    if rowFind d "status" == some "000" then none
    else some ("DART API 오류: " ++ ((rowFind d "message").getD "알 수 없는 오류")
      ++ " (status: " ++ ((rowFind d "status").getD "unknown") ++ ")")

theorem exec_failure_hit (env : Env) (dl : Download) (api : String → ApiReply)
    (cc y rc m : String) (st : St) (hcc : cc ≠ "") (hy : y ≠ "")
    (hfc : lookupA st.failure_cache
      (FailKey.execs (normalize_corp_code cc) y rc) = some m) :
    get_executives env dl api (some cc) none (some y) rc st = (.error m, st, []) := by
  have hres : resolve_corp (fun _ => listedFirstSelect) env dl st (some cc) none =
      (.ok (some cc), st, []) := by
    rw [resolve_corp]
    simp [optTruthy]
  have htr : optTruthy (some cc) = true := by simp [optTruthy, hcc]
  have htry : optTruthy (some y) = true := by simp [optTruthy, hy]
  rw [get_executives, hres]
  simp only [htr, Bool.not_true, Bool.false_eq_true, if_false, htry, if_pos,
    Option.getD_some]
  simp [hfc]

theorem get_exec_uncached (env : Env) (dl : Download) (api : String → ApiReply)
    (cc y rc : String) (st : St) (hcc : cc ≠ "") (hy : y ≠ "")
    (hfc : lookupA st.failure_cache
      (FailKey.execs (normalize_corp_code cc) y rc) = none)
    (hsc : lookupA st.executives_cache
      ((normalize_corp_code cc, y, rc) : FinKey) = none)
    (hkey : env.api_key ≠ "") :
    get_executives env dl api (some cc) none (some y) rc st =
      ((dartYearLoop api (fun q => UpCall.execs (normalize_corp_code cc) q rc)
          "executives" (normalize_corp_code cc) rc "임원정보 조회 실패: "
          (FailKey.execs (normalize_corp_code cc) y rc)
          (years_to_try y env.current_year) none st.executives_cache
          st.failure_cache).1,
        { st with
          executives_cache :=
            (dartYearLoop api (fun q => UpCall.execs (normalize_corp_code cc) q rc)
              "executives" (normalize_corp_code cc) rc "임원정보 조회 실패: "
              (FailKey.execs (normalize_corp_code cc) y rc)
              (years_to_try y env.current_year) none st.executives_cache
              st.failure_cache).2.1,
          failure_cache :=
            (dartYearLoop api (fun q => UpCall.execs (normalize_corp_code cc) q rc)
              "executives" (normalize_corp_code cc) rc "임원정보 조회 실패: "
              (FailKey.execs (normalize_corp_code cc) y rc)
              (years_to_try y env.current_year) none st.executives_cache
              st.failure_cache).2.2.1 },
        (dartYearLoop api (fun q => UpCall.execs (normalize_corp_code cc) q rc)
          "executives" (normalize_corp_code cc) rc "임원정보 조회 실패: "
          (FailKey.execs (normalize_corp_code cc) y rc)
          (years_to_try y env.current_year) none st.executives_cache
          st.failure_cache).2.2.2) := by
  have hres : resolve_corp (fun _ => listedFirstSelect) env dl st (some cc) none =
      (.ok (some cc), st, []) := by
    rw [resolve_corp]
    simp [optTruthy]
  have htr : optTruthy (some cc) = true := by simp [optTruthy, hcc]
  have htry : optTruthy (some y) = true := by simp [optTruthy, hy]
  rw [get_executives, hres]
  simp only [htr, Bool.not_true, Bool.false_eq_true, if_false, htry, if_pos,
    Option.getD_some]
  simp only [hfc, hsc]
  rw [if_neg (by simpa using hkey)]
  simp

theorem share_failure_hit (env : Env) (dl : Download) (api : String → ApiReply)
    (cc y rc m : String) (st : St) (hcc : cc ≠ "") (hy : y ≠ "")
    (hfc : lookupA st.failure_cache
      (FailKey.shares (normalize_corp_code cc) y rc) = some m) :
    get_shareholders env dl api (some cc) none (some y) rc st = (.error m, st, []) := by
  have hres : resolve_corp (fun _ => listedFirstSelect) env dl st (some cc) none =
      (.ok (some cc), st, []) := by
    rw [resolve_corp]
    simp [optTruthy]
  have htr : optTruthy (some cc) = true := by simp [optTruthy, hcc]
  have htry : optTruthy (some y) = true := by simp [optTruthy, hy]
  rw [get_shareholders, hres]
  simp only [htr, Bool.not_true, Bool.false_eq_true, if_false, htry, if_pos,
    Option.getD_some]
  simp [hfc]

theorem get_share_uncached (env : Env) (dl : Download) (api : String → ApiReply)
    (cc y rc : String) (st : St) (hcc : cc ≠ "") (hy : y ≠ "")
    (hfc : lookupA st.failure_cache
      (FailKey.shares (normalize_corp_code cc) y rc) = none)
    (hsc : lookupA st.shareholders_cache
      ((normalize_corp_code cc, y, rc) : FinKey) = none)
    (hkey : env.api_key ≠ "") :
    get_shareholders env dl api (some cc) none (some y) rc st =
      ((dartYearLoop api (fun q => UpCall.shares (normalize_corp_code cc) q rc)
          "shareholders" (normalize_corp_code cc) rc "지분보고서 조회 실패: "
          (FailKey.shares (normalize_corp_code cc) y rc)
          (years_to_try y env.current_year) none st.shareholders_cache
          st.failure_cache).1,
        { st with
          shareholders_cache :=
            (dartYearLoop api (fun q => UpCall.shares (normalize_corp_code cc) q rc)
              "shareholders" (normalize_corp_code cc) rc "지분보고서 조회 실패: "
              (FailKey.shares (normalize_corp_code cc) y rc)
              (years_to_try y env.current_year) none st.shareholders_cache
              st.failure_cache).2.1,
          failure_cache :=
            (dartYearLoop api (fun q => UpCall.shares (normalize_corp_code cc) q rc)
              "shareholders" (normalize_corp_code cc) rc "지분보고서 조회 실패: "
              (FailKey.shares (normalize_corp_code cc) y rc)
              (years_to_try y env.current_year) none st.shareholders_cache
              st.failure_cache).2.2.1 },
        (dartYearLoop api (fun q => UpCall.shares (normalize_corp_code cc) q rc)
          "shareholders" (normalize_corp_code cc) rc "지분보고서 조회 실패: "
          (FailKey.shares (normalize_corp_code cc) y rc)
          (years_to_try y env.current_year) none st.shareholders_cache
          st.failure_cache).2.2.2) := by
  have hres : resolve_corp (fun _ => listedFirstSelect) env dl st (some cc) none =
      (.ok (some cc), st, []) := by
    rw [resolve_corp]
    simp [optTruthy]
  have htr : optTruthy (some cc) = true := by simp [optTruthy, hcc]
  have htry : optTruthy (some y) = true := by simp [optTruthy, hy]
  rw [get_shareholders, hres]
  simp only [htr, Bool.not_true, Bool.false_eq_true, if_false, htry, if_pos,
    Option.getD_some]
  simp only [hfc, hsc]
  rw [if_neg (by simpa using hkey)]
  simp

theorem ov_failure_hit (env : Env) (dl : Download) (ovApi : String → OvReply)
    (cc m : String) (st : St)
    (hcc : cc ≠ "") (hv : (validate_corp_code cc).fst = true)
    (hfc : lookupA st.failure_cache
      (FailKey.ovw (normalize_corp_code cc)) = some m) :
    get_company_overview env dl ovApi (some cc) none st = (.error m, st, []) := by
  have hres : resolve_corp (fun _ => listedFirstSelect) env dl st (some cc) none =
      (.ok (some cc), st, []) := by
    rw [resolve_corp]
    simp [optTruthy]
  have htr : optTruthy (some cc) = true := by simp [optTruthy, hcc]
  rw [get_company_overview, hres]
  rcases hval : validate_corp_code cc with ⟨b, msg⟩
  rw [hval] at hv
  simp only at hv
  subst hv
  simp only [htr, Bool.not_true, Bool.false_eq_true, if_false, Option.getD_some, hval]
  simp [hfc]

theorem ov_uncached_fail (env : Env) (dl : Download) (ovApi : String → OvReply)
    (cc msg : String) (st : St)
    (hcc : cc ≠ "") (hv : (validate_corp_code cc).fst = true)
    (hfc : lookupA st.failure_cache (FailKey.ovw (normalize_corp_code cc)) = none)
    (hsc : lookupA st.overview_cache (normalize_corp_code cc) = none)
    (hkey : env.api_key ≠ "")
    (hfail : ovFailMsg (ovApi (normalize_corp_code cc)) = some msg) :
    get_company_overview env dl ovApi (some cc) none st =
      (.error msg,
        { st with failure_cache :=
          (FailKey.ovw (normalize_corp_code cc), msg) :: st.failure_cache },
        [UpCall.overview (normalize_corp_code cc)]) := by
  have hres : resolve_corp (fun _ => listedFirstSelect) env dl st (some cc) none =
      (.ok (some cc), st, []) := by
    rw [resolve_corp]
    simp [optTruthy]
  have htr : optTruthy (some cc) = true := by simp [optTruthy, hcc]
  rw [get_company_overview, hres]
  rcases hval : validate_corp_code cc with ⟨b, msg'⟩
  rw [hval] at hv
  simp only at hv
  subst hv
  simp only [htr, Bool.not_true, Bool.false_eq_true, if_false, Option.getD_some, hval]
  simp only [hfc, hsc]
  rw [if_neg (by simpa using hkey)]
  cases har : ovApi (normalize_corp_code cc) with
  | notDict =>
    rw [har] at hfail
    simp only [ovFailMsg, Option.some.injEq] at hfail
    subst hfail
    simp
  | reqFail e =>
    rw [har] at hfail
    simp only [ovFailMsg, Option.some.injEq] at hfail
    subst hfail
    simp
  | resp d =>
    rw [har] at hfail
    cases hstat : (rowFind d "status" == some "000") with
    | true =>
      exfalso
      simp [ovFailMsg, hstat] at hfail
    | false =>
      simp only [ovFailMsg, hstat, Bool.false_eq_true, if_false,
        Option.some.injEq] at hfail
      subst hfail
      simp [hstat]

theorem disc_failure_hit (env : Env) (dateOk : String → Bool) (reply : DiscReply)
    (cc bgn ed : String) (pn pcnt : Nat) (today thirty m : String) (st : St)
    (hv : (validate_corp_code cc).fst = true)
    (hbg : bgn ≠ "") (hed : ed ≠ "")
    (hdok : (dateOk bgn && dateOk ed) = true)
    (hfc : lookupA st.failure_cache
      (FailKey.disc (normalize_corp_code cc) bgn ed pn pcnt) = some m) :
    get_public_disclosure env dateOk reply cc (some bgn) (some ed) pn pcnt
        today thirty st = (.error m, st, []) := by
  have htrb : optTruthy (some bgn) = true := by simp [optTruthy, hbg]
  have htre : optTruthy (some ed) = true := by simp [optTruthy, hed]
  rw [get_public_disclosure]
  rcases hval : validate_corp_code cc with ⟨b, msg⟩
  rw [hval] at hv
  simp only at hv
  subst hv
  simp only [htrb, htre, if_pos, Option.getD_some, hdok, Bool.not_true,
    Bool.false_eq_true, if_false]
  simp [hfc]

theorem disc_uncached_fail (env : Env) (dateOk : String → Bool) (reply : DiscReply)
    (cc bgn ed : String) (pn pcnt : Nat) (today thirty msg : String) (st : St)
    (hv : (validate_corp_code cc).fst = true)
    (hbg : bgn ≠ "") (hed : ed ≠ "")
    (hdok : (dateOk bgn && dateOk ed) = true)
    (hfc : lookupA st.failure_cache
      (FailKey.disc (normalize_corp_code cc) bgn ed pn pcnt) = none)
    (hsc : lookupA st.disclosure_cache
      ((normalize_corp_code cc, bgn, ed, pn, pcnt) : DiscKey) = none)
    (hkey : env.api_key ≠ "")
    (hfail : discFailMsg reply = some msg) :
    get_public_disclosure env dateOk reply cc (some bgn) (some ed) pn pcnt
        today thirty st =
      (.error msg,
        { st with failure_cache :=
          (FailKey.disc (normalize_corp_code cc) bgn ed pn pcnt, msg)
            :: st.failure_cache },
        [UpCall.disc (normalize_corp_code cc) bgn ed pn pcnt]) := by
  have htrb : optTruthy (some bgn) = true := by simp [optTruthy, hbg]
  have htre : optTruthy (some ed) = true := by simp [optTruthy, hed]
  rw [get_public_disclosure]
  rcases hval : validate_corp_code cc with ⟨b, msg'⟩
  rw [hval] at hv
  simp only at hv
  subst hv
  simp only [htrb, htre, if_pos, Option.getD_some, hdok, Bool.not_true,
    Bool.false_eq_true, if_false]
  simp only [hfc, hsc]
  rw [if_neg (by simpa using hkey)]
  cases reply with
  | notDict =>
    simp only [discFailMsg, Option.some.injEq] at hfail
    subst hfail
    simp
  | reqFail e =>
    simp only [discFailMsg, Option.some.injEq] at hfail
    subst hfail
    simp
  | resp d total lst =>
    cases hstat : (rowFind d "status" == some "000") with
    | true =>
      exfalso
      simp [discFailMsg, hstat] at hfail
    | false =>
      simp only [discFailMsg, hstat, Bool.false_eq_true, if_false,
        Option.some.injEq] at hfail
      subst hfail
      simp [hstat]

/-- C6 (amended): for every identifier-keyed lookup — financial statement,
disclosures, overview, executives, shareholders — the failure cache is
consulted before the success cache and before any upstream call; on
terminal failure the error is written to the failure cache so that an
immediate repeat call returns the cached failure with no upstream call.
Company search, however, has no failure cache: a failed search leaves the
cache state unchanged and a repeat call issues a fresh upstream call. -/
theorem failure_cache_spec (env : Env) (dl : Download) (api : String → ApiReply)
    (ovApi : String → OvReply) (dateOk : String → Bool) (reply : DiscReply)
    (cc y rc m l em name bgn ed : String) (pn pcnt : Nat)
    (today thirty msgO msgD : String) (st : St) :
    (cc ≠ "" → (validate_corp_code cc).fst = true → y ≠ "" →
      (validate_bsns_year env.current_year (some y)).fst = true →
      lookupA st.failure_cache (FailKey.fin (normalize_corp_code cc) y rc) = some m →
      get_financial_statement env dl api (some cc) none (some y) rc st =
        (.error m, st, []))
    ∧ (cc ≠ "" → (validate_corp_code cc).fst = true → y ≠ "" →
      (validate_bsns_year env.current_year (some y)).fst = true →
      lookupA st.failure_cache (FailKey.fin (normalize_corp_code cc) y rc) = none →
      lookupA st.financial_cache ((normalize_corp_code cc, y, rc) : FinKey) = none →
      env.api_key ≠ "" →
      (years_to_try y env.current_year).getLast? = some l →
      (∀ yr ∈ years_to_try y env.current_year, apiHit (api yr) = false) →
      get_financial_statement env dl api (some cc) none (some y) rc st =
        (.error ("재무제표 조회 실패: " ++ errMsgFor l (api l)),
          { st with failure_cache :=
            (FailKey.fin (normalize_corp_code cc) y rc,
              "재무제표 조회 실패: " ++ errMsgFor l (api l)) :: st.failure_cache },
          (years_to_try y env.current_year).map
            (fun q => UpCall.fin (normalize_corp_code cc) q rc))
      ∧ get_financial_statement env dl api (some cc) none (some y) rc
          { st with failure_cache :=
            (FailKey.fin (normalize_corp_code cc) y rc,
              "재무제표 조회 실패: " ++ errMsgFor l (api l)) :: st.failure_cache } =
        (.error ("재무제표 조회 실패: " ++ errMsgFor l (api l)),
          { st with failure_cache :=
            (FailKey.fin (normalize_corp_code cc) y rc,
              "재무제표 조회 실패: " ++ errMsgFor l (api l)) :: st.failure_cache },
          []))
    ∧ (lookupA st.company_cache name = none → env.api_key ≠ "" →
      search_company env (.reqFail em) st name =
        (.error ("API 요청 실패: " ++ em), st, [UpCall.corpCode]))
    ∧ ((validate_corp_code cc).fst = true → bgn ≠ "" → ed ≠ "" →
      (dateOk bgn && dateOk ed) = true →
      lookupA st.failure_cache
        (FailKey.disc (normalize_corp_code cc) bgn ed pn pcnt) = some m →
      get_public_disclosure env dateOk reply cc (some bgn) (some ed) pn pcnt
        today thirty st = (.error m, st, []))
    ∧ ((validate_corp_code cc).fst = true → bgn ≠ "" → ed ≠ "" →
      (dateOk bgn && dateOk ed) = true →
      lookupA st.failure_cache
        (FailKey.disc (normalize_corp_code cc) bgn ed pn pcnt) = none →
      lookupA st.disclosure_cache
        ((normalize_corp_code cc, bgn, ed, pn, pcnt) : DiscKey) = none →
      env.api_key ≠ "" → discFailMsg reply = some msgD →
      get_public_disclosure env dateOk reply cc (some bgn) (some ed) pn pcnt
          today thirty st =
        (.error msgD,
          { st with failure_cache :=
            (FailKey.disc (normalize_corp_code cc) bgn ed pn pcnt, msgD)
              :: st.failure_cache },
          [UpCall.disc (normalize_corp_code cc) bgn ed pn pcnt])
      ∧ get_public_disclosure env dateOk reply cc (some bgn) (some ed) pn pcnt
          today thirty
          { st with failure_cache :=
            (FailKey.disc (normalize_corp_code cc) bgn ed pn pcnt, msgD)
              :: st.failure_cache } =
        (.error msgD,
          { st with failure_cache :=
            (FailKey.disc (normalize_corp_code cc) bgn ed pn pcnt, msgD)
              :: st.failure_cache },
          []))
    ∧ (cc ≠ "" → (validate_corp_code cc).fst = true →
      lookupA st.failure_cache (FailKey.ovw (normalize_corp_code cc)) = some m →
      get_company_overview env dl ovApi (some cc) none st = (.error m, st, []))
    ∧ (cc ≠ "" → (validate_corp_code cc).fst = true →
      lookupA st.failure_cache (FailKey.ovw (normalize_corp_code cc)) = none →
      lookupA st.overview_cache (normalize_corp_code cc) = none →
      env.api_key ≠ "" →
      ovFailMsg (ovApi (normalize_corp_code cc)) = some msgO →
      get_company_overview env dl ovApi (some cc) none st =
        (.error msgO,
          { st with failure_cache :=
            (FailKey.ovw (normalize_corp_code cc), msgO) :: st.failure_cache },
          [UpCall.overview (normalize_corp_code cc)])
      ∧ get_company_overview env dl ovApi (some cc) none
          { st with failure_cache :=
            (FailKey.ovw (normalize_corp_code cc), msgO) :: st.failure_cache } =
        (.error msgO,
          { st with failure_cache :=
            (FailKey.ovw (normalize_corp_code cc), msgO) :: st.failure_cache },
          []))
    ∧ (cc ≠ "" → y ≠ "" →
      lookupA st.failure_cache (FailKey.execs (normalize_corp_code cc) y rc) = some m →
      get_executives env dl api (some cc) none (some y) rc st = (.error m, st, []))
    ∧ (cc ≠ "" → y ≠ "" →
      lookupA st.failure_cache (FailKey.execs (normalize_corp_code cc) y rc) = none →
      lookupA st.executives_cache ((normalize_corp_code cc, y, rc) : FinKey) = none →
      env.api_key ≠ "" →
      (years_to_try y env.current_year).getLast? = some l →
      (∀ yr ∈ years_to_try y env.current_year, apiHit (api yr) = false) →
      get_executives env dl api (some cc) none (some y) rc st =
        (.error ("임원정보 조회 실패: " ++ errMsgFor l (api l)),
          { st with failure_cache :=
            (FailKey.execs (normalize_corp_code cc) y rc,
              "임원정보 조회 실패: " ++ errMsgFor l (api l)) :: st.failure_cache },
          (years_to_try y env.current_year).map
            (fun q => UpCall.execs (normalize_corp_code cc) q rc))
      ∧ get_executives env dl api (some cc) none (some y) rc
          { st with failure_cache :=
            (FailKey.execs (normalize_corp_code cc) y rc,
              "임원정보 조회 실패: " ++ errMsgFor l (api l)) :: st.failure_cache } =
        (.error ("임원정보 조회 실패: " ++ errMsgFor l (api l)),
          { st with failure_cache :=
            (FailKey.execs (normalize_corp_code cc) y rc,
              "임원정보 조회 실패: " ++ errMsgFor l (api l)) :: st.failure_cache },
          []))
    ∧ (cc ≠ "" → y ≠ "" →
      lookupA st.failure_cache (FailKey.shares (normalize_corp_code cc) y rc) = some m →
      get_shareholders env dl api (some cc) none (some y) rc st = (.error m, st, []))
    ∧ (cc ≠ "" → y ≠ "" →
      lookupA st.failure_cache (FailKey.shares (normalize_corp_code cc) y rc) = none →
      lookupA st.shareholders_cache ((normalize_corp_code cc, y, rc) : FinKey) = none →
      env.api_key ≠ "" →
      (years_to_try y env.current_year).getLast? = some l →
      (∀ yr ∈ years_to_try y env.current_year, apiHit (api yr) = false) →
      get_shareholders env dl api (some cc) none (some y) rc st =
        (.error ("지분보고서 조회 실패: " ++ errMsgFor l (api l)),
          { st with failure_cache :=
            (FailKey.shares (normalize_corp_code cc) y rc,
              "지분보고서 조회 실패: " ++ errMsgFor l (api l)) :: st.failure_cache },
          (years_to_try y env.current_year).map
            (fun q => UpCall.shares (normalize_corp_code cc) q rc))
      ∧ get_shareholders env dl api (some cc) none (some y) rc
          { st with failure_cache :=
            (FailKey.shares (normalize_corp_code cc) y rc,
              "지분보고서 조회 실패: " ++ errMsgFor l (api l)) :: st.failure_cache } =
        (.error ("지분보고서 조회 실패: " ++ errMsgFor l (api l)),
          { st with failure_cache :=
            (FailKey.shares (normalize_corp_code cc) y rc,
              "지분보고서 조회 실패: " ++ errMsgFor l (api l)) :: st.failure_cache },
          [])) := by
  refine ⟨fin_failure_hit env dl api cc y rc m st, ?_, ?_, ?_, ?_, ?_, ?_, ?_, ?_, ?_, ?_⟩
  · intro hcc hv hy hvy hfc hsc hkey hl hall
    constructor
    · rw [get_fin_uncached env dl api cc y rc st hcc hv hy hvy hfc hsc hkey,
        dartYearLoop_all_miss api (fun q => UpCall.fin (normalize_corp_code cc) q rc)
          "financial_data" (normalize_corp_code cc) rc "재무제표 조회 실패: "
          (FailKey.fin (normalize_corp_code cc) y rc)
          (years_to_try y env.current_year) l hl hall none st.financial_cache
          st.failure_cache]
    · apply fin_failure_hit env dl api cc y rc _ _ hcc hv hy hvy
      simp [lookupA]
  · intro hcm hkey
    rw [search_company]
    simp only [hcm]
    rw [if_neg (by simpa using hkey)]
  · intro hv hbg hed hdok hfc
    exact disc_failure_hit env dateOk reply cc bgn ed pn pcnt today thirty m st
      hv hbg hed hdok hfc
  · intro hv hbg hed hdok hfc hsc hkey hfail
    refine ⟨disc_uncached_fail env dateOk reply cc bgn ed pn pcnt today thirty msgD st
      hv hbg hed hdok hfc hsc hkey hfail, ?_⟩
    apply disc_failure_hit env dateOk reply cc bgn ed pn pcnt today thirty msgD _
      hv hbg hed hdok
    simp [lookupA]
  · intro hcc hv hfc
    exact ov_failure_hit env dl ovApi cc m st hcc hv hfc
  · intro hcc hv hfc hsc hkey hfail
    refine ⟨ov_uncached_fail env dl ovApi cc msgO st hcc hv hfc hsc hkey hfail, ?_⟩
    apply ov_failure_hit env dl ovApi cc msgO _ hcc hv
    simp [lookupA]
  · intro hcc hy hfc
    exact exec_failure_hit env dl api cc y rc m st hcc hy hfc
  · intro hcc hy hfc hsc hkey hl hall
    constructor
    · rw [get_exec_uncached env dl api cc y rc st hcc hy hfc hsc hkey,
        dartYearLoop_all_miss api (fun q => UpCall.execs (normalize_corp_code cc) q rc)
          "executives" (normalize_corp_code cc) rc "임원정보 조회 실패: "
          (FailKey.execs (normalize_corp_code cc) y rc)
          (years_to_try y env.current_year) l hl hall none st.executives_cache
          st.failure_cache]
    · apply exec_failure_hit env dl api cc y rc _ _ hcc hy
      simp [lookupA]
  · intro hcc hy hfc
    exact share_failure_hit env dl api cc y rc m st hcc hy hfc
  · intro hcc hy hfc hsc hkey hl hall
    constructor
    · rw [get_share_uncached env dl api cc y rc st hcc hy hfc hsc hkey,
        dartYearLoop_all_miss api (fun q => UpCall.shares (normalize_corp_code cc) q rc)
          "shareholders" (normalize_corp_code cc) rc "지분보고서 조회 실패: "
          (FailKey.shares (normalize_corp_code cc) y rc)
          (years_to_try y env.current_year) l hl hall none st.shareholders_cache
          st.failure_cache]
    · apply share_failure_hit env dl api cc y rc _ _ hcc hy
      simp [lookupA]

/-- A concrete `"013"` no-data reply for the disclosure endpoint. -/
def discReplyW : DiscReply :=
  .resp [("status", "013"), ("message", "조회된 데이타가 없습니다.")] 0 []

/-- Witness for C6 (amended): with every candidate year answering `"013"`,
the financial lookup caches the failure and the immediate repeat call
returns it without an upstream call; likewise a failed disclosure lookup
caches its failure and the repeat call is served from the cache. -/
theorem failure_cache_spec_witness :
    (get_financial_statement envW (.entries []) apiF013 (some "126380") none
        (some "2023") "11011" St.empty =
      (.error ("재무제표 조회 실패: " ++ errMsgFor "2022" (apiF013 "2022")),
        { St.empty with failure_cache :=
          [(FailKey.fin "00126380" "2023" "11011",
            "재무제표 조회 실패: " ++ errMsgFor "2022" (apiF013 "2022"))] },
        [UpCall.fin "00126380" "2023" "11011", UpCall.fin "00126380" "2024" "11011",
          UpCall.fin "00126380" "2022" "11011"]) ∧
    get_financial_statement envW (.entries []) apiF013 (some "126380") none
        (some "2023") "11011"
        { St.empty with failure_cache :=
          [(FailKey.fin "00126380" "2023" "11011",
            "재무제표 조회 실패: " ++ errMsgFor "2022" (apiF013 "2022"))] } =
      (.error ("재무제표 조회 실패: " ++ errMsgFor "2022" (apiF013 "2022")),
        { St.empty with failure_cache :=
          [(FailKey.fin "00126380" "2023" "11011",
            "재무제표 조회 실패: " ++ errMsgFor "2022" (apiF013 "2022"))] },
        []))
    ∧ (get_public_disclosure envW (fun _ => true) discReplyW "126380"
        (some "20240101") (some "20241231") 1 10 "" "" St.empty =
      (.error "DART API 오류: 조회된 데이타가 없습니다. (status: 013)",
        { St.empty with failure_cache :=
          [(FailKey.disc "00126380" "20240101" "20241231" 1 10,
            "DART API 오류: 조회된 데이타가 없습니다. (status: 013)")] },
        [UpCall.disc "00126380" "20240101" "20241231" 1 10]) ∧
    get_public_disclosure envW (fun _ => true) discReplyW "126380"
        (some "20240101") (some "20241231") 1 10 "" ""
        { St.empty with failure_cache :=
          [(FailKey.disc "00126380" "20240101" "20241231" 1 10,
            "DART API 오류: 조회된 데이타가 없습니다. (status: 013)")] } =
      (.error "DART API 오류: 조회된 데이타가 없습니다. (status: 013)",
        { St.empty with failure_cache :=
          [(FailKey.disc "00126380" "20240101" "20241231" 1 10,
            "DART API 오류: 조회된 데이타가 없습니다. (status: 013)")] },
        [])) := by
  have h := failure_cache_spec envW (.entries []) apiF013 ovApiW (fun _ => true)
    discReplyW "126380" "2023" "11011" "" "2022" "" "" "20240101" "20241231" 1 10
    "" "" "" "DART API 오류: 조회된 데이타가 없습니다. (status: 013)" St.empty
  refine ⟨h.2.1 (by decide) (by decide) (by decide) (by decide)
    (by rfl) (by rfl) (by decide) (by rfl) (by decide), ?_⟩
  exact h.2.2.2.2.1 (by decide) (by decide) (by decide) (by rfl) (by rfl) (by rfl)
    (by decide) (by rfl)

/-! ## C7: company-search retention. -/

/-- Modelled from the spec (§4.4) for comparison — "retain every entry
whose name contains the query text as a case-insensitive substring". -/
def specMatches (query : String) (c : Company) : Bool :=
  occursIn (pyLower query).toList (pyLower c.corp_name).toList

/-- A parsed registry entry whose `corp_name` tag was absent
(`findtext` defaults it to `""`). -/
def coNoName : Company := ⟨"00000003", "", "", "d5"⟩

/-- Counterexample to C7 as stated: for the empty query, an entry with an
empty name contains the query as a (trivial) case-insensitive substring,
yet `search_company` drops it — the code additionally requires a
non-empty name (`if corp_name and ...`). -/
theorem search_retention_counterexample :
    specMatches "" coNoName = true ∧
      matchesQuery "" coNoName = false ∧
      search_company envW (.entries [coNoName]) St.empty "" =
        (.ok 0 [],
          { St.empty with company_cache := [("", SCResult.ok 0 [])] },
          [UpCall.corpCode]) :=
  ⟨rfl, rfl, rfl⟩

/-- C7 (amended): on a cache miss, company search retains exactly the
parsed entries with a *non-empty* name containing the query as a
case-insensitive substring, in their order of appearance; the total is
their count; and the result is stored in the company cache keyed solely
by the raw query text. -/
theorem search_retention_spec (env : Env) (es : List Company) (st : St) (q : String)
    (hcm : lookupA st.company_cache q = none) (hkey : env.api_key ≠ "") :
    search_company env (.entries es) st q =
      (.ok (es.filter (matchesQuery q)).length (es.filter (matchesQuery q)),
        { st with company_cache :=
          (q, SCResult.ok (es.filter (matchesQuery q)).length
            (es.filter (matchesQuery q))) :: st.company_cache },
        [UpCall.corpCode])
    ∧ List.Sublist (es.filter (matchesQuery q)) es
    ∧ (∀ c ∈ es, matchesQuery q c = (!(c.corp_name == "") && specMatches q c))
    ∧ lookupA ((q, SCResult.ok (es.filter (matchesQuery q)).length
        (es.filter (matchesQuery q))) :: st.company_cache) q =
      some (SCResult.ok (es.filter (matchesQuery q)).length
        (es.filter (matchesQuery q))) := by
  refine ⟨?_, List.filter_sublist es, fun c _ => rfl, by simp [lookupA]⟩
  rw [search_company]
  simp only [hcm]
  rw [if_neg (by simpa using hkey)]

/-- Witness for C7 (amended): searching `"x"` over the two counterexample
entries retains both (case-insensitively) and caches under the raw query. -/
theorem search_retention_spec_witness :
    search_company envW (.entries [coXH, coX]) St.empty "x" =
      (.ok ([coXH, coX].filter (matchesQuery "x")).length
          ([coXH, coX].filter (matchesQuery "x")),
        { St.empty with company_cache :=
          ("x", SCResult.ok ([coXH, coX].filter (matchesQuery "x")).length
            ([coXH, coX].filter (matchesQuery "x"))) :: St.empty.company_cache },
        [UpCall.corpCode]) :=
  (search_retention_spec envW [coXH, coX] St.empty "x" (by rfl) (by decide)).1

/-! ## C8: the spec's 2023→2022 fallback scenario. -/

/-- The scenario oracle: 2023 answers status `"000"` with an empty list,
2022 has data, everything else is a `"013"` no-data reply. -/
def api126380 : String → ApiReply := fun y =>
  if y == "2023" then .resp "000" "정상" []
  else if y == "2022" then
    .resp "000" "정상" [[("bsns_year", "2022"), ("account_nm", "매출액")]]
  else .resp "013" "조회된 데이타가 없습니다." []

def env2026 : Env := ⟨"testkey123", 2026, 10⟩

/-- Counterexample to C8 as stated: the fallback years come from the
*current* year, not the requested one.  With the current year 2026 the
candidates for a 2023 request are 2023, 2025, 2024 — 2022 is never
attempted, and the scenario produces an error instead of the 2022 data. -/
theorem year_fallback_scenario_counterexample :
    (get_financial_statement env2026 (.entries []) api126380 (some "126380") none
        (some "2023") "11011" St.empty).1 =
      .error "재무제표 조회 실패: 2024년도: 조회된 데이터가 없습니다." ∧
      apiHit (api126380 "2022") = true ∧
      "2022" ∉ years_to_try "2023" 2026 :=
  ⟨rfl, rfl, by decide⟩

/-- C8 (amended): the scenario holds exactly when 2022 is among the
candidate years, i.e. when the current year is between 2023 and 2025: if
2023 answers a soft miss and only 2022 has data, the lookup returns a
success with `bsns_year = "2022"` carrying the 2022 data (cached under
the year actually used), after issuing at least one upstream call. -/
theorem year_fallback_scenario_spec (key : String) (cy mon : Nat) (dl : Download)
    (api : String → ApiReply) (st : St) (s m : String) (lst : List Row)
    (h1 : 2023 ≤ cy) (h2 : cy ≤ 2025)
    (hmiss : ∀ yr, yr ≠ "2022" → apiHit (api yr) = false)
    (hhit : api "2022" = .resp s m lst) (hs : s = "000") (hne : lst ≠ [])
    (hfc : lookupA st.failure_cache (FailKey.fin "00126380" "2023" "11011") = none)
    (hsc : lookupA st.financial_cache (("00126380", "2023", "11011") : FinKey) = none)
    (hkey : key ≠ "") :
    ∃ calls,
      get_financial_statement ⟨key, cy, mon⟩ dl api (some "126380") none (some "2023")
          "11011" st =
        (.ok "financial_data" "00126380" "2022" "11011" lst,
          { st with financial_cache :=
            (("00126380", "2022", "11011"),
              LookupResult.ok "financial_data" "00126380" "2022" "11011" lst)
              :: st.financial_cache },
          calls) ∧ calls ≠ [] := by
  have hcc : "126380" ≠ "" := by decide
  have hval : (validate_corp_code "126380").fst = true := by decide
  have hy : "2023" ≠ "" := by decide
  interval_cases cy
  · have hvy : (validate_bsns_year 2023 (some "2023")).fst = true := by decide
    rw [get_fin_uncached ⟨key, 2023, mon⟩ dl api "126380" "2023" "11011" st hcc hval hy
      hvy hfc hsc hkey]
    have hpre : ∀ p ∈ (["2023"] : List String), apiHit (api p) = false := by
      intro p hp
      apply hmiss p
      fin_cases hp; decide
    have hys : years_to_try "2023" 2023 = ["2023"] ++ "2022" :: ["2021", "2020"] := by rfl
    rw [hys,
      dartYearLoop_first_hit api
        (fun q => UpCall.fin (normalize_corp_code "126380") q "11011") "financial_data"
        (normalize_corp_code "126380") "11011" "재무제표 조회 실패: "
        (FailKey.fin (normalize_corp_code "126380") "2023" "11011")
        ["2023"] "2022" ["2021", "2020"] s m lst hpre hhit hs hne none st.financial_cache
        st.failure_cache]
    exact ⟨_, rfl, by simp⟩
  · have hvy : (validate_bsns_year 2024 (some "2023")).fst = true := by decide
    rw [get_fin_uncached ⟨key, 2024, mon⟩ dl api "126380" "2023" "11011" st hcc hval hy
      hvy hfc hsc hkey]
    have hpre : ∀ p ∈ (["2023"] : List String), apiHit (api p) = false := by
      intro p hp
      apply hmiss p
      fin_cases hp; decide
    have hys : years_to_try "2023" 2024 = ["2023"] ++ "2022" :: ["2021"] := by rfl
    rw [hys,
      dartYearLoop_first_hit api
        (fun q => UpCall.fin (normalize_corp_code "126380") q "11011") "financial_data"
        (normalize_corp_code "126380") "11011" "재무제표 조회 실패: "
        (FailKey.fin (normalize_corp_code "126380") "2023" "11011")
        ["2023"] "2022" ["2021"] s m lst hpre hhit hs hne none st.financial_cache
        st.failure_cache]
    exact ⟨_, rfl, by simp⟩
  · have hvy : (validate_bsns_year 2025 (some "2023")).fst = true := by decide
    rw [get_fin_uncached ⟨key, 2025, mon⟩ dl api "126380" "2023" "11011" st hcc hval hy
      hvy hfc hsc hkey]
    have hpre : ∀ p ∈ (["2023", "2024"] : List String), apiHit (api p) = false := by
      intro p hp
      apply hmiss p
      fin_cases hp <;> decide
    have hys : years_to_try "2023" 2025 = ["2023", "2024"] ++ "2022" :: [] := by rfl
    rw [hys,
      dartYearLoop_first_hit api
        (fun q => UpCall.fin (normalize_corp_code "126380") q "11011") "financial_data"
        (normalize_corp_code "126380") "11011" "재무제표 조회 실패: "
        (FailKey.fin (normalize_corp_code "126380") "2023" "11011")
        ["2023", "2024"] "2022" [] s m lst hpre hhit hs hne none st.financial_cache
        st.failure_cache]
    exact ⟨_, rfl, by simp⟩

/-- Witness for C8 (amended): at current year 2025 with the scenario
oracle, the lookup returns the 2022 data. -/
theorem year_fallback_scenario_spec_witness :
    ∃ calls,
      get_financial_statement ⟨"testkey123", 2025, 10⟩ (.entries []) api126380
          (some "126380") none (some "2023") "11011" St.empty =
        (.ok "financial_data" "00126380" "2022" "11011"
            [[("bsns_year", "2022"), ("account_nm", "매출액")]],
          { St.empty with financial_cache :=
            [(("00126380", "2022", "11011"),
              LookupResult.ok "financial_data" "00126380" "2022" "11011"
                [[("bsns_year", "2022"), ("account_nm", "매출액")]])] },
          calls) ∧ calls ≠ [] :=
  year_fallback_scenario_spec "testkey123" 2025 10 (.entries []) api126380 St.empty
    "000" "정상" [[("bsns_year", "2022"), ("account_nm", "매출액")]]
    (by omega) (by omega)
    (by
      intro yr hyr
      rw [api126380]
      by_cases h23 : yr = "2023"
      · subst h23; rfl
      · rw [if_neg (by simpa using h23), if_neg (by simpa using hyr)]
        rfl)
    (by rfl) rfl (by decide) (by rfl) (by rfl) (by decide)

/-! ## C9: fallback successes are cached under the year actually used. -/

/-- C9: when the financial lookup succeeds via period fallback (the year
actually used differs from the requested year), the success is written to
the success cache under the year actually used; the requested-year key
remains absent, so an immediate repeat call with the same parameters
misses both caches and issues upstream calls again. -/
theorem fallback_cache_key_spec (env : Env) (dl : Download) (api : String → ApiReply)
    (cc y rc : String) (st : St) (pre : List String) (yr : String) (rest : List String)
    (s m : String) (lst : List Row)
    (hcc : cc ≠ "") (hval : (validate_corp_code cc).fst = true)
    (hy : y ≠ "") (hvy : (validate_bsns_year env.current_year (some y)).fst = true)
    (hfc : lookupA st.failure_cache (FailKey.fin (normalize_corp_code cc) y rc) = none)
    (hsc : lookupA st.financial_cache
      ((normalize_corp_code cc, y, rc) : FinKey) = none)
    (hkey : env.api_key ≠ "")
    (hsplit : years_to_try y env.current_year = pre ++ yr :: rest)
    (hpre : ∀ p ∈ pre, apiHit (api p) = false)
    (hhit : api yr = .resp s m lst) (hs : s = "000") (hne : lst ≠ [])
    (hyy : yr ≠ y) :
    get_financial_statement env dl api (some cc) none (some y) rc st =
      (.ok "financial_data" (normalize_corp_code cc) yr rc lst,
        { st with financial_cache :=
          ((normalize_corp_code cc, yr, rc),
            LookupResult.ok "financial_data" (normalize_corp_code cc) yr rc lst)
            :: st.financial_cache },
        (pre ++ [yr]).map (fun q => UpCall.fin (normalize_corp_code cc) q rc))
    ∧ lookupA (((normalize_corp_code cc, yr, rc),
          LookupResult.ok "financial_data" (normalize_corp_code cc) yr rc lst)
            :: st.financial_cache) ((normalize_corp_code cc, y, rc) : FinKey) = none
    ∧ get_financial_statement env dl api (some cc) none (some y) rc
        { st with financial_cache :=
          ((normalize_corp_code cc, yr, rc),
            LookupResult.ok "financial_data" (normalize_corp_code cc) yr rc lst)
            :: st.financial_cache } =
      (.ok "financial_data" (normalize_corp_code cc) yr rc lst,
        { st with financial_cache :=
          ((normalize_corp_code cc, yr, rc),
            LookupResult.ok "financial_data" (normalize_corp_code cc) yr rc lst)
            :: ((normalize_corp_code cc, yr, rc),
              LookupResult.ok "financial_data" (normalize_corp_code cc) yr rc lst)
            :: st.financial_cache },
        (pre ++ [yr]).map (fun q => UpCall.fin (normalize_corp_code cc) q rc))
    ∧ (pre ++ [yr]).map (fun q => UpCall.fin (normalize_corp_code cc) q rc) ≠ [] := by
  have hkne : (((normalize_corp_code cc, yr, rc) : FinKey) ==
      ((normalize_corp_code cc, y, rc) : FinKey)) = false := by
    apply beq_eq_false_iff_ne.mpr
    intro h
    apply hyy
    have := congrArg (fun k : FinKey => k.2.1) h
    simpa using this
  have hmiss2 : lookupA (((normalize_corp_code cc, yr, rc),
      LookupResult.ok "financial_data" (normalize_corp_code cc) yr rc lst)
        :: st.financial_cache) ((normalize_corp_code cc, y, rc) : FinKey) = none := by
    rw [lookupA, List.find?_cons_of_neg _ (by simpa using hkne)]
    exact hsc
  have main : ∀ st' : St,
      lookupA st'.failure_cache (FailKey.fin (normalize_corp_code cc) y rc) = none →
      lookupA st'.financial_cache ((normalize_corp_code cc, y, rc) : FinKey) = none →
      get_financial_statement env dl api (some cc) none (some y) rc st' =
        (.ok "financial_data" (normalize_corp_code cc) yr rc lst,
          { st' with financial_cache :=
            ((normalize_corp_code cc, yr, rc),
              LookupResult.ok "financial_data" (normalize_corp_code cc) yr rc lst)
              :: st'.financial_cache },
          (pre ++ [yr]).map (fun q => UpCall.fin (normalize_corp_code cc) q rc)) := by
    intro st' hfc' hsc'
    rw [get_fin_uncached env dl api cc y rc st' hcc hval hy hvy hfc' hsc' hkey, hsplit,
      dartYearLoop_first_hit api
        (fun q => UpCall.fin (normalize_corp_code cc) q rc) "financial_data"
        (normalize_corp_code cc) rc "재무제표 조회 실패: "
        (FailKey.fin (normalize_corp_code cc) y rc) pre yr rest s m lst hpre hhit hs hne
        none st'.financial_cache st'.failure_cache]
  refine ⟨main st hfc hsc, hmiss2, ?_, by simp⟩
  exact main
    { st with financial_cache :=
      ((normalize_corp_code cc, yr, rc),
        LookupResult.ok "financial_data" (normalize_corp_code cc) yr rc lst)
        :: st.financial_cache } hfc hmiss2

/-- Witness for C9: requesting 2023 with data only in 2022 caches the 2022
entry; the repeat call re-issues the same upstream calls. -/
theorem fallback_cache_key_spec_witness :
    get_financial_statement ⟨"testkey123", 2025, 10⟩ (.entries []) api126380
        (some "126380") none (some "2023") "11011" St.empty =
      (.ok "financial_data" "00126380" "2022" "11011"
          [[("bsns_year", "2022"), ("account_nm", "매출액")]],
        { St.empty with financial_cache :=
          [(("00126380", "2022", "11011"),
            LookupResult.ok "financial_data" "00126380" "2022" "11011"
              [[("bsns_year", "2022"), ("account_nm", "매출액")]])] },
        (["2023", "2024"] ++ ["2022"]).map (fun q => UpCall.fin "00126380" q "11011")) ∧
    (["2023", "2024"] ++ ["2022"]).map (fun q => UpCall.fin "00126380" q "11011") ≠ [] := by
  have h := fallback_cache_key_spec ⟨"testkey123", 2025, 10⟩ (.entries []) api126380
    "126380" "2023" "11011" St.empty ["2023", "2024"] "2022" []
    "000" "정상" [[("bsns_year", "2022"), ("account_nm", "매출액")]]
    (by decide) (by decide) (by decide) (by decide) (by rfl) (by rfl) (by decide)
    (by rfl) (by decide) (by rfl) rfl (by decide) (by decide)
  exact ⟨h.1, h.2.2.2⟩

/-! ## C10: trend analysis. -/

theorem trendLoop_length (env : Env) (dl : Download) (api : String → ApiReply)
    (cc : String) :
    ∀ (n i : Nat) (st : St), (trendLoop env dl api cc n i st).1.length ≤ n := by
  intro n
  induction n with
  | zero => intro i st; simp [trendLoop]
  | succ n' ih =>
    intro i st
    rw [trendLoop]
    rcases hr : get_financial_statement env dl api (some cc) none
      (some (toString (env.current_year - i - 1))) "11011" st with ⟨r, st1, c1⟩
    cases r with
    | error msg =>
      simp only
      have hlen := ih (i + 1) st1
      rcases h2 : trendLoop env dl api cc n' (i + 1) st1 with ⟨restL, st2, c2⟩
      rw [h2] at hlen
      simpa using Nat.le_succ_of_le hlen
    | ok f cc' y' rc' data =>
      simp only
      have hlen := ih (i + 1) st1
      rcases h2 : trendLoop env dl api cc n' (i + 1) st1 with ⟨restL, st2, c2⟩
      rw [h2] at hlen
      simpa using hlen

/-- C10: with a non-empty credential, `analyze_financial_trend` always
returns the success shape — corp_code, `years_analyzed` equal to the
number of yearly lookups that returned without error (the length of the
collected trend), the trend list and a summary; it never returns an
error key and performs no identifier validation of its own.  In
particular, with the invalid identifier `"123456789"` and every year
failing, it returns `years_analyzed = 0` with an empty trend and no
upstream calls. -/
theorem trend_analysis_spec :
    (∀ (env : Env) (dl : Download) (api : String → ApiReply) (cc : String)
      (years : Nat) (st : St), env.api_key ≠ "" →
      analyze_financial_trend env dl api cc years st =
        (.ok cc (trendLoop env dl api cc years 0 st).1.length
          (trendLoop env dl api cc years 0 st).1 trendSummary,
          (trendLoop env dl api cc years 0 st).2.1,
          (trendLoop env dl api cc years 0 st).2.2)
      ∧ (trendLoop env dl api cc years 0 st).1.length ≤ years)
    ∧ analyze_financial_trend envW (.entries []) apiF013 "123456789" 3 St.empty =
      (.ok "123456789" 0 [] trendSummary, St.empty, []) := by
  constructor
  · intro env dl api cc years st hkey
    constructor
    · rw [analyze_financial_trend, if_neg (by simpa using hkey)]
    · exact trendLoop_length env dl api cc years 0 st
  · rfl

/-- Witness for C10: with a credential set and every year failing, the
result is success-shaped. -/
theorem trend_analysis_spec_witness :
    analyze_financial_trend envW (.entries []) apiF013 "00126380" 2 St.empty =
      (.ok "00126380"
        (trendLoop envW (.entries []) apiF013 "00126380" 2 0 St.empty).1.length
        (trendLoop envW (.entries []) apiF013 "00126380" 2 0 St.empty).1 trendSummary,
        (trendLoop envW (.entries []) apiF013 "00126380" 2 0 St.empty).2.1,
        (trendLoop envW (.entries []) apiF013 "00126380" 2 0 St.empty).2.2) :=
  ((trend_analysis_spec).1 envW (.entries []) apiF013 "00126380" 2 St.empty
    (by decide)).1

end CompanyInfo
